import Mathlib

/-!
# Brent 1-D solver (`ql/Solvers1D/brent.hpp`)

Shallow embedding of `QuantLib::Brent::solveImpl` and `QuantLib::Brent::sign`.

* The arithmetic of the solver is modelled exactly, over an arbitrary linearly ordered field
  `α` (instantiated at `ℚ` for concrete runs and at `ℝ` where continuity is needed); rounding of
  `double` is not modelled.
* `QL_EPSILON` comes from a header outside this file; it is the parameter `eps`.
* `QL_FABS` is the absolute value; `/` is the division of the field.
* `Outcome.returned` is `return root_` (line 69), `Outcome.failed` is the `QL_FAIL` of lines
  109-112 carrying the reported `maxEvaluations_`.
* The members `xMin_`, `xMax_`, `fxMin_`, `fxMax_`, `root_`, `evaluationNumber_` and
  `maxEvaluations_` are declared in `ql/solver1d.hpp`; the two counters are modelled as natural
  numbers.
* The field `calls` is instrumentation: it records every abscissa at which `f` is called, most
  recent first.
-/

namespace QuantLib

namespace Brent

/-- Solver members together with the locals of `solveImpl` that live across iterations. -/
structure State (α : Type) where
  xMin : α
  xMax : α
  fxMin : α
  fxMax : α
  root : α
  froot : α
  d : α
  e : α
  evaluationNumber : Nat
  calls : List α
deriving DecidableEq

/-- How a call of `solveImpl` ends: `return root_`, `QL_FAIL` reporting the budget, or (model
only) the iteration bound of `loop` ran out. -/
inductive Outcome (α : Type) where
  | returned (root : α) (final : State α)
  | failed (reported : Nat) (final : State α)
  | outOfFuel (final : State α)
deriving DecidableEq

variable {α : Type} [LinearOrderedField α]

/-- The private member `sign(a, b)`: `b >= 0.0 ? QL_FABS(a) : -QL_FABS(a)`. -/
def sign (a b : α) : α :=
  if 0 ≤ b then |a| else -|a|

/-- Lines 46-47: `root_ = xMax_; froot = fxMax_;` with `d = 0.0, e = 0.0` from line 44. -/
def init (s : State α) : State α :=
  { s with root := s.xMax, froot := s.fxMax, d := 0, e := 0 }

/-- Lines 49-56: rename `xMin_`, `root_`, `xMax_` and adjust bounds. -/
def rebracket (s : State α) : State α :=
  if (0 < s.froot ∧ 0 < s.fxMax) ∨ (s.froot < 0 ∧ s.fxMax < 0) then
    { s with xMax := s.xMin, fxMax := s.fxMin, d := s.root - s.xMin, e := s.root - s.xMin }
  else s

/-- Lines 57-64: the swap that makes `root_` the end with the smaller function magnitude. -/
def reorder (s : State α) : State α :=
  if |s.fxMax| < |s.froot| then
    { s with xMin := s.root, root := s.xMax, xMax := s.root,
             fxMin := s.froot, froot := s.fxMax, fxMax := s.froot }
  else s

/-- Line 66: `xAcc1=2.0*QL_EPSILON*QL_FABS(root_)+0.5*xAccuracy`. -/
def xAcc1 (eps xAccuracy : α) (s : State α) : α :=
  2 * eps * |s.root| + 0.5 * xAccuracy

/-- Line 67: `xMid=(xMax_-root_)/2.0`. -/
def xMid (s : State α) : α :=
  (s.xMax - s.root) / 2

/-- Line 68: the convergence test `QL_FABS(xMid) <= xAcc1 || froot == 0.0`. -/
def converged (eps xAccuracy : α) (s : State α) : Prop :=
  |xMid s| ≤ xAcc1 eps xAccuracy s ∨ s.froot = 0

instance (eps xAccuracy : α) (s : State α) : Decidable (converged eps xAccuracy s) := by
  unfold converged; infer_instance

/-- Line 74: `s=froot/fxMin_`. -/
def sRatio (s : State α) : α := s.froot / s.fxMin

/-- Lines 75-83: the numerator `p` before sign normalisation. -/
def pRaw (s : State α) : α :=
  if s.xMin = s.xMax then
    2 * xMid s * sRatio s
  else
    sRatio s * (2 * xMid s * (s.fxMin / s.fxMax) * (s.fxMin / s.fxMax - s.froot / s.fxMax)
      - (s.root - s.xMin) * (s.froot / s.fxMax - 1))

/-- Lines 75-83: the denominator `q` before sign normalisation. -/
def qRaw (s : State α) : α :=
  if s.xMin = s.xMax then
    1 - sRatio s
  else
    (s.fxMin / s.fxMax - 1) * (s.froot / s.fxMax - 1) * (sRatio s - 1)

/-- Line 84: `if (p > 0.0) q = -q;`. -/
def qNorm (s : State α) : α :=
  if 0 < pRaw s then -qRaw s else qRaw s

/-- Line 85: `p=QL_FABS(p)`. -/
def pNorm (s : State α) : α := |pRaw s|

/-- Line 86: `min1=3.0*xMid*q-QL_FABS(xAcc1*q)`. -/
def min1 (eps xAccuracy : α) (s : State α) : α :=
  3 * xMid s * qNorm s - |xAcc1 eps xAccuracy s * qNorm s|

/-- Line 87: `min2=QL_FABS(e*q)`. -/
def min2 (s : State α) : α := |s.e * qNorm s|

/-- Line 70: the guard of the interpolation attempt. -/
def tryInterpolation (eps xAccuracy : α) (s : State α) : Prop :=
  xAcc1 eps xAccuracy s ≤ |s.e| ∧ |s.froot| < |s.fxMin|

instance (eps xAccuracy : α) (s : State α) : Decidable (tryInterpolation eps xAccuracy s) := by
  unfold tryInterpolation; infer_instance

/-- Line 88: `2.0*p < (min1 < min2 ? min1 : min2)`. -/
def accepted (eps xAccuracy : α) (s : State α) : Prop :=
  2 * pNorm s <
    (if min1 eps xAccuracy s < min2 s then min1 eps xAccuracy s else min2 s)

instance (eps xAccuracy : α) (s : State α) : Decidable (accepted eps xAccuracy s) := by
  unfold accepted; infer_instance

/-- Lines 70-99: the new values of the step memory `(d, e)`. -/
def chooseStep (eps xAccuracy : α) (s : State α) : α × α :=
  if tryInterpolation eps xAccuracy s then
    if accepted eps xAccuracy s then
      (pNorm s / qNorm s, s.d)
    else
      (xMid s, xMid s)
  else
    (xMid s, xMid s)

/-- Lines 102-105: the increment added to `root_`. -/
def delta (eps xAccuracy : α) (s : State α) : α :=
  if xAcc1 eps xAccuracy s < |(chooseStep eps xAccuracy s).1| then
    (chooseStep eps xAccuracy s).1
  else
    sign (xAcc1 eps xAccuracy s) (xMid s)

/-- Lines 70-107: everything after a failed convergence check, ending with the call of `f` and
`evaluationNumber_++`. -/
def advance (f : α → α) (eps xAccuracy : α) (s : State α) : State α :=
  { xMin := s.root
    xMax := s.xMax
    fxMin := s.froot
    fxMax := s.fxMax
    root := s.root + delta eps xAccuracy s
    froot := f (s.root + delta eps xAccuracy s)
    d := (chooseStep eps xAccuracy s).1
    e := (chooseStep eps xAccuracy s).2
    evaluationNumber := s.evaluationNumber + 1
    calls := (s.root + delta eps xAccuracy s) :: s.calls }

/-- Lines 49-64: the state at the convergence check of the iteration starting in `s`. -/
def atCheck (s : State α) : State α := reorder (rebracket s)

/-- One full pass through the loop body that does not return (lines 49-107). -/
def iteration (f : α → α) (eps xAccuracy : α) (s : State α) : State α :=
  advance f eps xAccuracy (atCheck s)

/-- Lines 48-113: the `while` loop followed by `QL_FAIL`. The first argument bounds the number of
loop-head visits; `Outcome.outOfFuel` means the bound was too small. -/
def loop (f : α → α) (eps xAccuracy : α) (maxEvaluations : Nat) :
    Nat → State α → Outcome α
  | 0, s => Outcome.outOfFuel s
  | fuel + 1, s =>
    if s.evaluationNumber ≤ maxEvaluations then
      if converged eps xAccuracy (atCheck s) then
        Outcome.returned (atCheck s).root (atCheck s)
      else
        loop f eps xAccuracy maxEvaluations fuel (iteration f eps xAccuracy s)
    else
      Outcome.failed maxEvaluations s

/-- `Brent::solveImpl(f, xAccuracy)` run on the solver state `s`. Every pass through the loop
body increments `evaluationNumber_`, so `(maxEvaluations_ + 1 - evaluationNumber_) + 1`
loop-head visits always suffice (truncated subtraction). -/
def solveImpl (f : α → α) (eps xAccuracy : α) (maxEvaluations : Nat) (s : State α) : Outcome α :=
  loop f eps xAccuracy maxEvaluations (maxEvaluations + 1 - s.evaluationNumber + 1) (init s)

/-- The solver state an outcome ends in. -/
def Outcome.final : Outcome α → State α
  | Outcome.returned _ t => t
  | Outcome.failed _ t => t
  | Outcome.outOfFuel t => t

/-- Whether an outcome is a real end of the C++ call (a `return` or the `QL_FAIL`). -/
def Outcome.isDone : Outcome α → Bool
  | Outcome.outOfFuel _ => false
  | _ => true

/-- The loop-head states of one call: `LoopHead f eps xAccuracy maxEvaluations s n h` says that
the call started from `s` evaluates the `while` condition for the `(n+1)`-th time in state `h`,
that is after `n` complete passes through the body, none of which returned. -/
inductive LoopHead (f : α → α) (eps xAccuracy : α) (maxEvaluations : Nat) (s : State α) :
    Nat → State α → Prop
  | entry : LoopHead f eps xAccuracy maxEvaluations s 0 (init s)
  | next {n : Nat} {h : State α} :
      LoopHead f eps xAccuracy maxEvaluations s n h →
      h.evaluationNumber ≤ maxEvaluations →
      ¬ converged eps xAccuracy (atCheck h) →
      LoopHead f eps xAccuracy maxEvaluations s (n + 1) (iteration f eps xAccuracy h)

/-- The closed interval spanned by the endpoints of the bracket of `s` contains `x`. -/
def InBracket (s : State α) (x : α) : Prop :=
  min s.xMin s.xMax ≤ x ∧ x ≤ max s.xMin s.xMax

/-- The three abscissae of `t` lie in the bracket of `s`. -/
def AbscissaeIn (s t : State α) : Prop :=
  InBracket s t.xMin ∧ InBracket s t.root ∧ InBracket s t.xMax

/-- The width `|xMax_ - root_|` of the pair tested at the convergence check. -/
def width (s : State α) : α := |s.xMax - s.root|

/-- Stored function values agree with `f`. -/
def Consistent (f : α → α) (t : State α) : Prop :=
  t.fxMin = f t.xMin ∧ t.fxMax = f t.xMax ∧ t.froot = f t.root

instance (s : State α) (x : α) : Decidable (InBracket s x) := by
  unfold InBracket; infer_instance

instance (s t : State α) : Decidable (AbscissaeIn s t) := by
  unfold AbscissaeIn; infer_instance

instance (f : α → α) (t : State α) : Decidable (Consistent f t) := by
  unfold Consistent; infer_instance

/-! ## The interpolation with every division checked -/

/-- A division as the C++ code executes it, defined only when the divisor is not zero. -/
def checkedDiv (a b : α) : Option α :=
  if b = 0 then none else some (a / b)

/-- Lines 74-83 with the divisions of lines 74, 79 and 80 checked: the pair `(p, q)` before sign
normalisation. -/
def interpolantChecked (s : State α) : Option (α × α) :=
  (checkedDiv s.froot s.fxMin).bind fun sr =>
    if s.xMin = s.xMax then
      some (2 * xMid s * sr, 1 - sr)
    else
      (checkedDiv s.fxMin s.fxMax).bind fun q =>
        (checkedDiv s.froot s.fxMax).bind fun r =>
          some (sr * (2 * xMid s * q * (q - r) - (s.root - s.xMin) * (r - 1)),
            (q - 1) * (r - 1) * (sr - 1))

/-- Lines 84-94 applied to a pair `(p, q)`, with the division of line 90 checked. -/
def acceptChecked (eps xAccuracy : α) (s : State α) (pq : α × α) : Option (α × α) :=
  if 2 * |pq.1| <
      (if 3 * xMid s * (if 0 < pq.1 then -pq.2 else pq.2)
            - |xAcc1 eps xAccuracy s * (if 0 < pq.1 then -pq.2 else pq.2)|
          < |s.e * (if 0 < pq.1 then -pq.2 else pq.2)|
        then 3 * xMid s * (if 0 < pq.1 then -pq.2 else pq.2)
            - |xAcc1 eps xAccuracy s * (if 0 < pq.1 then -pq.2 else pq.2)|
        else |s.e * (if 0 < pq.1 then -pq.2 else pq.2)|) then
    (checkedDiv |pq.1| (if 0 < pq.1 then -pq.2 else pq.2)).map fun d => (d, s.d)
  else
    some (xMid s, xMid s)

/-- Lines 70-99 with all four divisions checked: `none` means that some division had a zero
divisor. -/
def chooseStepChecked (eps xAccuracy : α) (s : State α) : Option (α × α) :=
  if tryInterpolation eps xAccuracy s then
    (interpolantChecked s).bind (acceptChecked eps xAccuracy s)
  else
    some (xMid s, xMid s)

/-! ## Concrete inputs -/

/-- The value `2^-52` of `DBL_EPSILON`, used for `QL_EPSILON` in the concrete runs. -/
def machineEps : α := 1 / 2 ^ 52

/-- The identity, a function with the single zero `0`. -/
def linearFn (x : α) : α := x

/-- Entry state for `linearFn` on the bracket `[-1, 1]`, two evaluations already counted. -/
def linearEntry : State α :=
  { xMin := -1, xMax := 1, fxMin := -1, fxMax := 1, root := 0, froot := 0, d := 0, e := 0,
    evaluationNumber := 2, calls := [] }

/-- State of the run from `linearEntry` at its first convergence check. -/
def linearCheck0 : State α :=
  { xMin := -1, xMax := -1, fxMin := -1, fxMax := -1, root := 1, froot := 1, d := 2, e := 2,
    evaluationNumber := 2, calls := [] }

/-- State of the run from `linearEntry` after one pass (with `eps = machineEps`,
`xAccuracy = 0`). -/
def linearHead1 : State α :=
  { xMin := 1, xMax := -1, fxMin := 1, fxMax := -1, root := 0, froot := 0, d := -1, e := -1,
    evaluationNumber := 3, calls := [0] }

/-- The function `x^2 - 2`. -/
def squareFn (x : α) : α := x * x - 2

/-- Entry state for `squareFn` on the bracket `[0, 2]`, two evaluations already counted. -/
def squareEntry : State α :=
  { xMin := 0, xMax := 2, fxMin := -2, fxMax := 2, root := 0, froot := 0, d := 0, e := 0,
    evaluationNumber := 2, calls := [] }

/-- State of the run from `squareEntry` at its first convergence check. -/
def squareCheck0 : State α :=
  { xMin := 0, xMax := 0, fxMin := -2, fxMax := -2, root := 2, froot := 2, d := 2, e := 2,
    evaluationNumber := 2, calls := [] }

/-- State of the run from `squareEntry` after one pass (with `eps = machineEps`,
`xAccuracy = 1`). -/
def squareHead1 : State α :=
  { xMin := 2, xMax := 0, fxMin := 2, fxMax := -2, root := 1, froot := -1, d := -1, e := -1,
    evaluationNumber := 3, calls := [1] }

/-- State of the run from `squareEntry` at its second convergence check. -/
def squareCheck1 : State α :=
  { xMin := 2, xMax := 2, fxMin := 2, fxMax := 2, root := 1, froot := -1, d := -1, e := -1,
    evaluationNumber := 3, calls := [1] }

/-- The function `x^3 - x - 2`. -/
def cubicFn (x : α) : α := x * x * x - x - 2

/-- Entry state for `cubicFn` on the bracket `[0, 3]`, two evaluations already counted. -/
def cubicEntry : State α :=
  { xMin := 0, xMax := 3, fxMin := -2, fxMax := 22, root := 0, froot := 0, d := 0, e := 0,
    evaluationNumber := 2, calls := [] }

/-- First convergence check of the run from `cubicEntry`: re-bracketed and swapped. -/
def cubicCheck0 : State α :=
  { xMin := 3, xMax := 3, fxMin := 22, fxMax := 22, root := 0, froot := -2, d := 3, e := 3,
    evaluationNumber := 2, calls := [] }

/-- Loop head after the first pass of the run from `cubicEntry` (an accepted secant step
`1/4`); it is also the state at the second convergence check. -/
def cubicHead1 : State α :=
  { xMin := 0, xMax := 3, fxMin := -2, fxMax := 22, root := 1 / 4, froot := -143 / 64,
    d := 1 / 4, e := 3, evaluationNumber := 3, calls := [1 / 4] }

/-- Loop head after the second pass of the run from `cubicEntry` (a bisection step `11/8`). -/
def cubicHead2 : State α :=
  { xMin := 1 / 4, xMax := 3, fxMin := -143 / 64, fxMax := 22, root := 13 / 8,
    froot := 341 / 512, d := 11 / 8, e := 11 / 8, evaluationNumber := 4,
    calls := [13 / 8, 1 / 4] }

/-- Third convergence check of the run from `cubicEntry`: re-bracketed, not swapped. -/
def cubicCheck2 : State α :=
  { xMin := 1 / 4, xMax := 1 / 4, fxMin := -143 / 64, fxMax := -143 / 64, root := 13 / 8,
    froot := 341 / 512, d := 11 / 8, e := 11 / 8, evaluationNumber := 4,
    calls := [13 / 8, 1 / 4] }

/-- The accuracy `1e-12` of the `x^2 - 2` scenario. -/
def sqrtAccuracy : ℚ := 1 / 10 ^ 12

/-- Loop head 2 of the run of `squareFn` from `squareEntry` with
`xAccuracy = 1/10^12`. -/
def sqrtHead2 : State ℚ :=
  { xMin := 1, xMax := 2, fxMin := -1, fxMax := 2,
    root := 4 / 3,
    froot := -2 / 9,
    d := 1 / 3, e := -1,
    evaluationNumber := 4,
    calls := [4 / 3, 1] }

/-- Loop head 3 of the run of `squareFn` from `squareEntry` with
`xAccuracy = 1/10^12`. -/
def sqrtHead3 : State ℚ :=
  { xMin := 4 / 3, xMax := 2, fxMin := -2 / 9, fxMax := 2,
    root := 149 / 105,
    froot := 151 / 11025,
    d := 3 / 35, e := 1 / 3,
    evaluationNumber := 5,
    calls := [149 / 105, 4 / 3, 1] }

/-- Convergence check 3 of the run of `squareFn` from `squareEntry` with
`xAccuracy = 1/10^12`. -/
def sqrtCheck3 : State ℚ :=
  { xMin := 4 / 3, xMax := 4 / 3, fxMin := -2 / 9, fxMax := -2 / 9,
    root := 149 / 105,
    froot := 151 / 11025,
    d := 3 / 35, e := 3 / 35,
    evaluationNumber := 5,
    calls := [149 / 105, 4 / 3, 1] }

/-- Loop head 4 of the run of `squareFn` from `squareEntry` with
`xAccuracy = 1/10^12`. -/
def sqrtHead4 : State ℚ :=
  { xMin := 149 / 105, xMax := 4 / 3, fxMin := 151 / 11025, fxMax := -2 / 9,
    root := 1226 / 867,
    froot := -302 / 751689,
    d := -151 / 30345, e := 3 / 35,
    evaluationNumber := 6,
    calls := [1226 / 867, 149 / 105, 4 / 3, 1] }

/-- Convergence check 4 of the run of `squareFn` from `squareEntry` with
`xAccuracy = 1/10^12`. -/
def sqrtCheck4 : State ℚ :=
  { xMin := 149 / 105, xMax := 149 / 105, fxMin := 151 / 11025, fxMax := 151 / 11025,
    root := 1226 / 867,
    froot := -302 / 751689,
    d := -151 / 30345, e := -151 / 30345,
    evaluationNumber := 6,
    calls := [1226 / 867, 149 / 105, 4 / 3, 1] }

/-- Loop head 5 of the run of `squareFn` from `squareEntry` with
`xAccuracy = 1/10^12`. -/
def sqrtHead5 : State ℚ :=
  { xMin := 1226 / 867, xMax := 149 / 105, fxMin := -302 / 751689, fxMax := 151 / 11025,
    root := 364744 / 257913,
    froot := -45602 / 66519115569,
    d := 10570 / 74536857, e := -151 / 30345,
    evaluationNumber := 7,
    calls := [364744 / 257913, 1226 / 867, 149 / 105, 4 / 3, 1] }

/-- Loop head 6 of the run of `squareFn` from `squareEntry` with
`xAccuracy = 1/10^12`. -/
def sqrtHead6 : State ℚ :=
  { xMin := 364744 / 257913, xMax := 149 / 105, fxMin := -45602 / 66519115569, fxMax := 151 / 11025,
    root := 983287022040720101857 / 695288921137698995757,
    froot := 56752614076066750271846842351 / 483426683856825413384297229826486304003049,
    d := 653408257 / 2695827357045589, e := 10570 / 74536857,
    evaluationNumber := 8,
    calls := [983287022040720101857 / 695288921137698995757, 364744 / 257913, 1226 / 867, 149 / 105, 4 / 3, 1] }

/-- Convergence check 6 of the run of `squareFn` from `squareEntry` with
`xAccuracy = 1/10^12`. -/
def sqrtCheck6 : State ℚ :=
  { xMin := 364744 / 257913, xMax := 364744 / 257913, fxMin := -45602 / 66519115569, fxMax := -45602 / 66519115569,
    root := 983287022040720101857 / 695288921137698995757,
    froot := 56752614076066750271846842351 / 483426683856825413384297229826486304003049,
    d := 653408257 / 2695827357045589, e := 653408257 / 2695827357045589,
    evaluationNumber := 8,
    calls := [983287022040720101857 / 695288921137698995757, 364744 / 257913, 1226 / 867, 149 / 105, 4 / 3, 1] }

/-- Loop head 7 of the run of `squareFn` from `squareEntry` with
`xAccuracy = 1/10^12`. -/
def sqrtHead7 : State ℚ :=
  { xMin := 983287022040720101857 / 695288921137698995757, xMax := 364744 / 257913, fxMin := 56752614076066750271846842351 / 483426683856825413384297229826486304003049, fxMax := -45602 / 66519115569,
    root := 540567757087312514650325497200668907671522767 / 382239126727365158331949793673216000000000000,
    froot := -189733260008913250732393290015664078479807025450766413737473190045835400663711 / 146106750001298721336372287574323219254994977935946673141795782656000000000000000000000000,
    d := -56752614076066750271846842351 / 1367337028274970326163843012773183953602261, e := 653408257 / 2695827357045589,
    evaluationNumber := 9,
    calls := [540567757087312514650325497200668907671522767 / 382239126727365158331949793673216000000000000, 983287022040720101857 / 695288921137698995757, 364744 / 257913, 1226 / 867, 149 / 105, 4 / 3, 1] }

/-- Convergence check 7 of the run of `squareFn` from `squareEntry` with
`xAccuracy = 1/10^12`. -/
def sqrtCheck7 : State ℚ :=
  { xMin := 540567757087312514650325497200668907671522767 / 382239126727365158331949793673216000000000000, xMax := 540567757087312514650325497200668907671522767 / 382239126727365158331949793673216000000000000, fxMin := -189733260008913250732393290015664078479807025450766413737473190045835400663711 / 146106750001298721336372287574323219254994977935946673141795782656000000000000000000000000, fxMax := -189733260008913250732393290015664078479807025450766413737473190045835400663711 / 146106750001298721336372287574323219254994977935946673141795782656000000000000000000000000,
    root := 983287022040720101857 / 695288921137698995757,
    froot := 56752614076066750271846842351 / 483426683856825413384297229826486304003049,
    d := -191359623671797989347092328477233 / 382239126727365158331949793673216000000000000, e := -191359623671797989347092328477233 / 382239126727365158331949793673216000000000000,
    evaluationNumber := 9,
    calls := [540567757087312514650325497200668907671522767 / 382239126727365158331949793673216000000000000, 983287022040720101857 / 695288921137698995757, 364744 / 257913, 1226 / 867, 149 / 105, 4 / 3, 1] }

/-! ## Unfolding lemmas -/

section Basic

variable (f : α → α) (eps xAccuracy : α) (maxEvaluations : Nat)

theorem loop_zero (s : State α) :
    loop f eps xAccuracy maxEvaluations 0 s = Outcome.outOfFuel s := rfl

theorem loop_succ (fuel : Nat) (s : State α) :
    loop f eps xAccuracy maxEvaluations (fuel + 1) s =
      if s.evaluationNumber ≤ maxEvaluations then
        if converged eps xAccuracy (atCheck s) then
          Outcome.returned (atCheck s).root (atCheck s)
        else
          loop f eps xAccuracy maxEvaluations fuel (iteration f eps xAccuracy s)
      else
        Outcome.failed maxEvaluations s := rfl

theorem loop_exhausted (fuel : Nat) (s : State α) (h : maxEvaluations < s.evaluationNumber) :
    loop f eps xAccuracy maxEvaluations (fuel + 1) s = Outcome.failed maxEvaluations s := by
  rw [loop_succ, if_neg (Nat.not_le.mpr h)]

theorem loop_converged (fuel : Nat) (s : State α) (h : s.evaluationNumber ≤ maxEvaluations)
    (hc : converged eps xAccuracy (atCheck s)) :
    loop f eps xAccuracy maxEvaluations (fuel + 1) s =
      Outcome.returned (atCheck s).root (atCheck s) := by
  rw [loop_succ, if_pos h, if_pos hc]

theorem loop_continue (fuel : Nat) (s : State α) (h : s.evaluationNumber ≤ maxEvaluations)
    (hc : ¬ converged eps xAccuracy (atCheck s)) :
    loop f eps xAccuracy maxEvaluations (fuel + 1) s =
      loop f eps xAccuracy maxEvaluations fuel (iteration f eps xAccuracy s) := by
  rw [loop_succ, if_pos h, if_neg hc]

/-- The swap and the re-bracket step neither call `f` nor touch the counter. -/
theorem atCheck_calls (s : State α) :
    (atCheck s).calls = s.calls ∧ (atCheck s).evaluationNumber = s.evaluationNumber := by
  unfold atCheck reorder rebracket
  split_ifs <;> exact ⟨rfl, rfl⟩

theorem iteration_evaluationNumber (s : State α) :
    (iteration f eps xAccuracy s).evaluationNumber = s.evaluationNumber + 1 := by
  show (atCheck s).evaluationNumber + 1 = _
  rw [(atCheck_calls s).2]

theorem iteration_calls (s : State α) :
    (iteration f eps xAccuracy s).calls = (iteration f eps xAccuracy s).root :: s.calls := by
  show _ :: (atCheck s).calls = _
  rw [(atCheck_calls s).1]; rfl

theorem iteration_froot (s : State α) :
    (iteration f eps xAccuracy s).froot = f (iteration f eps xAccuracy s).root := rfl

/-- More loop-head visits never change a finished outcome. -/
theorem loop_fuel_succ (fuel : Nat) (s : State α)
    (hd : (loop f eps xAccuracy maxEvaluations fuel s).isDone = true) :
    loop f eps xAccuracy maxEvaluations (fuel + 1) s =
      loop f eps xAccuracy maxEvaluations fuel s := by
  induction fuel generalizing s with
  | zero => simp [loop_zero, Outcome.isDone] at hd
  | succ k ih =>
    by_cases hg : s.evaluationNumber ≤ maxEvaluations
    · by_cases hc : converged eps xAccuracy (atCheck s)
      · rw [loop_converged f eps xAccuracy maxEvaluations _ s hg hc,
          loop_converged f eps xAccuracy maxEvaluations _ s hg hc]
      · rw [loop_continue f eps xAccuracy maxEvaluations k s hg hc] at hd
        rw [loop_continue f eps xAccuracy maxEvaluations _ s hg hc,
          loop_continue f eps xAccuracy maxEvaluations _ s hg hc]
        exact ih _ hd
    · rw [loop_exhausted f eps xAccuracy maxEvaluations _ s (Nat.not_le.mp hg),
        loop_exhausted f eps xAccuracy maxEvaluations _ s (Nat.not_le.mp hg)]

theorem loop_fuel_mono {fuel fuel' : Nat} (hle : fuel ≤ fuel') (s : State α)
    (hd : (loop f eps xAccuracy maxEvaluations fuel s).isDone = true) :
    loop f eps xAccuracy maxEvaluations fuel' s =
      loop f eps xAccuracy maxEvaluations fuel s := by
  induction hle with
  | refl => rfl
  | step _ ih =>
    rw [loop_fuel_succ f eps xAccuracy maxEvaluations _ s (by rw [ih]; exact hd), ih]

/-- With `maxEvaluations_ + 1 - evaluationNumber_ + 1` loop-head visits the loop always reaches
a `return` or the `QL_FAIL`. -/
theorem loop_isDone (fuel : Nat) (s : State α)
    (hf : maxEvaluations + 1 - s.evaluationNumber + 1 ≤ fuel) :
    (loop f eps xAccuracy maxEvaluations fuel s).isDone = true := by
  induction fuel generalizing s with
  | zero => omega
  | succ k ih =>
    rw [loop_succ]
    by_cases hg : s.evaluationNumber ≤ maxEvaluations
    · by_cases hc : converged eps xAccuracy (atCheck s)
      · simp [hg, hc, Outcome.isDone]
      · simp only [hg, hc, if_true, if_false]
        apply ih
        rw [iteration_evaluationNumber]
        omega
    · simp [hg, Outcome.isDone]

end Basic

/-! ## Loop heads and the outcome of the call -/

section Heads

variable {f : α → α} {eps xAccuracy : α} {maxEvaluations : Nat} {s : State α}

theorem LoopHead.evaluationNumber_eq {n : Nat} {h : State α}
    (hh : LoopHead f eps xAccuracy maxEvaluations s n h) :
    h.evaluationNumber = s.evaluationNumber + n := by
  induction hh with
  | entry => rfl
  | next _ _ _ ih => rw [iteration_evaluationNumber, ih]; omega

theorem LoopHead.unique {n : Nat} {h h' : State α}
    (hh : LoopHead f eps xAccuracy maxEvaluations s n h)
    (hh' : LoopHead f eps xAccuracy maxEvaluations s n h') : h = h' := by
  induction hh generalizing h' with
  | entry => cases hh'; rfl
  | next _ _ _ ih =>
    cases hh' with
    | next hp _ _ => rw [ih hp]

/-- Running the loop from the entry state passes through every loop head. -/
theorem LoopHead.loop_eq {n : Nat} {h : State α}
    (hh : LoopHead f eps xAccuracy maxEvaluations s n h) (fuel : Nat) :
    loop f eps xAccuracy maxEvaluations (fuel + n) (init s) =
      loop f eps xAccuracy maxEvaluations fuel h := by
  induction hh generalizing fuel with
  | entry => rfl
  | next _ hg hc ih =>
    rw [← loop_continue f eps xAccuracy maxEvaluations fuel _ hg hc, ← ih (fuel + 1)]
    congr 1
    omega

theorem init_evaluationNumber (s : State α) : (init s).evaluationNumber = s.evaluationNumber := rfl

theorem solveImpl_isDone (f : α → α) (eps xAccuracy : α) (maxEvaluations : Nat) (s : State α) :
    (solveImpl f eps xAccuracy maxEvaluations s).isDone = true :=
  loop_isDone f eps xAccuracy maxEvaluations _ (init s) (le_refl _)

/-- The call can be resumed from any of its loop heads. -/
theorem LoopHead.solveImpl_eq {n : Nat} {h : State α}
    (hh : LoopHead f eps xAccuracy maxEvaluations s n h) :
    solveImpl f eps xAccuracy maxEvaluations s =
      loop f eps xAccuracy maxEvaluations (maxEvaluations + 1 - h.evaluationNumber + 1) h := by
  rw [← hh.loop_eq]
  symm
  apply loop_fuel_mono f eps xAccuracy maxEvaluations _ (init s)
    (solveImpl_isDone f eps xAccuracy maxEvaluations s)
  rw [hh.evaluationNumber_eq]
  omega

theorem loop_returned_head {fuel n : Nat} {h : State α} {r : α} {t : State α}
    (hh : LoopHead f eps xAccuracy maxEvaluations s n h)
    (hr : loop f eps xAccuracy maxEvaluations fuel h = Outcome.returned r t) :
    ∃ k g, LoopHead f eps xAccuracy maxEvaluations s k g ∧ g.evaluationNumber ≤ maxEvaluations ∧
      converged eps xAccuracy (atCheck g) ∧ t = atCheck g ∧ r = (atCheck g).root := by
  induction fuel generalizing n h with
  | zero => simp [loop_zero] at hr
  | succ k ih =>
    by_cases hg : h.evaluationNumber ≤ maxEvaluations
    · by_cases hc : converged eps xAccuracy (atCheck h)
      · rw [loop_converged f eps xAccuracy maxEvaluations _ h hg hc] at hr
        injection hr with h1 h2
        exact ⟨n, h, hh, hg, hc, h2.symm, h1.symm⟩
      · rw [loop_continue f eps xAccuracy maxEvaluations _ h hg hc] at hr
        exact ih (LoopHead.next hh hg hc) hr
    · rw [loop_exhausted f eps xAccuracy maxEvaluations _ h (Nat.not_le.mp hg)] at hr
      cases hr

theorem loop_failed_head {fuel n : Nat} {h : State α} {m : Nat} {t : State α}
    (hh : LoopHead f eps xAccuracy maxEvaluations s n h)
    (hr : loop f eps xAccuracy maxEvaluations fuel h = Outcome.failed m t) :
    m = maxEvaluations ∧ maxEvaluations < t.evaluationNumber ∧
      ∃ k, LoopHead f eps xAccuracy maxEvaluations s k t := by
  induction fuel generalizing n h with
  | zero => simp [loop_zero] at hr
  | succ k ih =>
    by_cases hg : h.evaluationNumber ≤ maxEvaluations
    · by_cases hc : converged eps xAccuracy (atCheck h)
      · rw [loop_converged f eps xAccuracy maxEvaluations _ h hg hc] at hr
        cases hr
      · rw [loop_continue f eps xAccuracy maxEvaluations _ h hg hc] at hr
        exact ih (LoopHead.next hh hg hc) hr
    · rw [loop_exhausted f eps xAccuracy maxEvaluations _ h (Nat.not_le.mp hg)] at hr
      injection hr with h1 h2
      subst h2
      exact ⟨h1.symm, Nat.not_le.mp hg, n, hh⟩

/-- The call returns exactly when some loop head passes the budget test and its convergence
check succeeds; the value returned is `root_` at that check. -/
theorem solveImpl_returned_iff {r : α} {t : State α} :
    solveImpl f eps xAccuracy maxEvaluations s = Outcome.returned r t ↔
      ∃ n h, LoopHead f eps xAccuracy maxEvaluations s n h ∧
        h.evaluationNumber ≤ maxEvaluations ∧ converged eps xAccuracy (atCheck h) ∧
        t = atCheck h ∧ r = (atCheck h).root := by
  constructor
  · intro hr
    exact loop_returned_head LoopHead.entry hr
  · rintro ⟨n, h, hh, hg, hc, rfl, rfl⟩
    rw [hh.solveImpl_eq, loop_converged f eps xAccuracy maxEvaluations _ h hg hc]

/-- The call fails exactly when some loop head has the counter above the budget. -/
theorem solveImpl_failed_iff {m : Nat} {t : State α} :
    solveImpl f eps xAccuracy maxEvaluations s = Outcome.failed m t ↔
      m = maxEvaluations ∧ maxEvaluations < t.evaluationNumber ∧
        ∃ n, LoopHead f eps xAccuracy maxEvaluations s n t := by
  constructor
  · intro hr
    exact loop_failed_head LoopHead.entry hr
  · rintro ⟨rfl, hlt, n, hh⟩
    rw [hh.solveImpl_eq, loop_exhausted f eps xAccuracy m _ t hlt]

end Heads

/-! ## The step taken by one pass -/

section Step

variable (eps xAccuracy : α)

theorem xAcc1_eq (s : State α) :
    xAcc1 eps xAccuracy s = 2 * eps * |s.root| + xAccuracy / 2 := by
  unfold xAcc1
  norm_num
  ring

theorem two_mul_xMid (s : State α) : 2 * xMid s = s.xMax - s.root := by
  unfold xMid
  ring

theorem not_converged_iff (s : State α) :
    ¬ converged eps xAccuracy s ↔ xAcc1 eps xAccuracy s < |xMid s| ∧ s.froot ≠ 0 := by
  unfold converged
  rw [not_or, not_le]

/-- An accepted interpolation passes the test against `min1`. -/
theorem accepted_lt_min1 (s : State α) (h : accepted eps xAccuracy s) :
    2 * pNorm s < min1 eps xAccuracy s := by
  unfold accepted at h
  split_ifs at h with hm
  · exact h
  · exact lt_of_lt_of_le h (not_lt.mp hm)

/-- An accepted interpolation passes the test against `min2`. -/
theorem accepted_lt_min2 (s : State α) (h : accepted eps xAccuracy s) :
    2 * pNorm s < min2 s := by
  unfold accepted at h
  split_ifs at h with hm
  · exact lt_trans h hm
  · exact h

theorem pNorm_nonneg (s : State α) : 0 ≤ pNorm s := abs_nonneg _

/-- For an accepted interpolation `q` is non-zero and has the sign of `xMid`. -/
theorem accepted_xMid_mul_qNorm_pos (s : State α) (h : accepted eps xAccuracy s) :
    2 * pNorm s < 3 * (xMid s * qNorm s) ∧ 0 < xMid s * qNorm s := by
  have h1 := accepted_lt_min1 eps xAccuracy s h
  have hp := pNorm_nonneg s
  have ha : 0 ≤ |xAcc1 eps xAccuracy s * qNorm s| := abs_nonneg _
  unfold min1 at h1
  constructor <;> linarith

/-- The step `d` chosen by lines 70-99 points from `root_` towards `xMax_` and is no longer than
the width of the pair. -/
theorem chooseStep_between (s : State α) :
    (0 ≤ (chooseStep eps xAccuracy s).1 ∧ (chooseStep eps xAccuracy s).1 ≤ 2 * xMid s) ∨
    (2 * xMid s ≤ (chooseStep eps xAccuracy s).1 ∧ (chooseStep eps xAccuracy s).1 ≤ 0) := by
  have hbis : (0 ≤ xMid s ∧ xMid s ≤ 2 * xMid s) ∨ (2 * xMid s ≤ xMid s ∧ xMid s ≤ 0) := by
    rcases le_total 0 (xMid s) with hm | hm
    · left; constructor <;> linarith
    · right; constructor <;> linarith
  unfold chooseStep
  split_ifs with ht ha
  · obtain ⟨h2, hpos⟩ := accepted_xMid_mul_qNorm_pos eps xAccuracy s ha
    have hp := pNorm_nonneg s
    rcases lt_trichotomy (qNorm s) 0 with hq | hq | hq
    · right
      have hm : xMid s < 0 := by
        by_contra hcon
        have : xMid s * qNorm s ≤ 0 :=
          mul_nonpos_of_nonneg_of_nonpos (not_lt.mp hcon) hq.le
        linarith
      show 2 * xMid s ≤ pNorm s / qNorm s ∧ pNorm s / qNorm s ≤ 0
      constructor
      · rw [le_div_iff_of_neg hq]
        linarith
      · exact div_nonpos_of_nonneg_of_nonpos hp hq.le
    · rw [hq] at hpos
      simp at hpos
    · left
      show 0 ≤ pNorm s / qNorm s ∧ pNorm s / qNorm s ≤ 2 * xMid s
      constructor
      · exact div_nonneg hp hq.le
      · rw [div_le_iff₀ hq]
        linarith
  · exact hbis
  · exact hbis

/-- After a failed convergence check the increment of `root_` points from `root_` towards
`xMax_` and is no longer than the distance between them. -/
theorem delta_between (s : State α) (hc : ¬ converged eps xAccuracy s) :
    (0 ≤ delta eps xAccuracy s ∧ delta eps xAccuracy s ≤ s.xMax - s.root) ∨
    (s.xMax - s.root ≤ delta eps xAccuracy s ∧ delta eps xAccuracy s ≤ 0) := by
  obtain ⟨hlt, -⟩ := (not_converged_iff eps xAccuracy s).mp hc
  rw [← two_mul_xMid]
  unfold delta
  split_ifs with hd
  · exact chooseStep_between eps xAccuracy s
  · have ha : 0 ≤ xAcc1 eps xAccuracy s := le_trans (abs_nonneg _) (not_lt.mp hd)
    unfold sign
    rw [abs_of_nonneg ha]
    split_ifs with hm
    · left
      rw [abs_of_nonneg hm] at hlt
      constructor <;> linarith
    · right
      rw [abs_of_neg (not_le.mp hm)] at hlt
      constructor <;> linarith

end Step

/-! ## Invariants of the loop -/

section Invariants

variable {f : α → α} {eps xAccuracy : α} {maxEvaluations : Nat} {s : State α}

theorem init_abscissae (s : State α) : AbscissaeIn s (init s) := by
  unfold AbscissaeIn InBracket init
  simp

theorem rebracket_abscissae {t : State α} (h : AbscissaeIn s t) : AbscissaeIn s (rebracket t) := by
  unfold rebracket
  split_ifs
  · exact ⟨h.1, h.2.1, h.1⟩
  · exact h

theorem reorder_abscissae {t : State α} (h : AbscissaeIn s t) : AbscissaeIn s (reorder t) := by
  unfold reorder
  split_ifs
  · exact ⟨h.2.1, h.2.2, h.2.1⟩
  · exact h

theorem atCheck_abscissae {t : State α} (h : AbscissaeIn s t) : AbscissaeIn s (atCheck t) :=
  reorder_abscissae (rebracket_abscissae h)

theorem advance_abscissae {t : State α} (h : AbscissaeIn s t)
    (hc : ¬ converged eps xAccuracy t) : AbscissaeIn s (advance f eps xAccuracy t) := by
  refine ⟨h.2.1, ?_, h.2.2⟩
  obtain ⟨hr1, hr2⟩ := h.2.1
  obtain ⟨hx1, hx2⟩ := h.2.2
  show min s.xMin s.xMax ≤ t.root + delta eps xAccuracy t ∧
    t.root + delta eps xAccuracy t ≤ max s.xMin s.xMax
  rcases delta_between eps xAccuracy t hc with ⟨h0, h1⟩ | ⟨h1, h0⟩
  · constructor <;> linarith
  · constructor <;> linarith

theorem LoopHead.abscissae {n : Nat} {h : State α}
    (hh : LoopHead f eps xAccuracy maxEvaluations s n h) : AbscissaeIn s h := by
  induction hh with
  | entry => exact init_abscissae s
  | next _ _ hc ih => exact advance_abscissae (atCheck_abscissae ih) hc

/-- After the re-bracket step `froot` and `fxMax_` do not have the same strict sign. -/
theorem rebracket_sign {t : State α} (h : t.fxMin * t.fxMax ≤ 0) :
    (rebracket t).froot * (rebracket t).fxMax ≤ 0 := by
  unfold rebracket
  split_ifs with hs
  · show t.froot * t.fxMin ≤ 0
    rcases hs with ⟨h1, h2⟩ | ⟨h1, h2⟩
    · have : t.fxMin ≤ 0 := by
        by_contra hcon
        have := mul_pos (not_le.mp hcon) h2
        linarith
      exact mul_nonpos_of_nonneg_of_nonpos h1.le this
    · have : 0 ≤ t.fxMin := by
        by_contra hcon
        have := mul_pos_of_neg_of_neg (not_le.mp hcon) h2
        linarith
      exact mul_nonpos_of_nonpos_of_nonneg h1.le this
  · rw [not_or, not_and, not_and, not_lt, not_lt] at hs
    rcases le_total t.froot 0 with h1 | h1
    · rcases h1.lt_or_eq with h2 | h2
      · exact mul_nonpos_of_nonpos_of_nonneg h1 (hs.2 h2)
      · rw [h2, zero_mul]
    · rcases h1.lt_or_eq with h2 | h2
      · exact mul_nonpos_of_nonneg_of_nonpos h1 (hs.1 h2)
      · rw [← h2, zero_mul]

theorem reorder_sign (t : State α) :
    (reorder t).froot * (reorder t).fxMax = t.froot * t.fxMax := by
  unfold reorder
  split_ifs
  · exact mul_comm _ _
  · rfl

/-- After the swap `root_` carries the smaller function magnitude. -/
theorem reorder_abs_le (t : State α) : |(reorder t).froot| ≤ |(reorder t).fxMax| := by
  unfold reorder
  split_ifs with hs
  · exact hs.le
  · exact not_lt.mp hs

theorem atCheck_sign {t : State α} (h : t.fxMin * t.fxMax ≤ 0) :
    (atCheck t).froot * (atCheck t).fxMax ≤ 0 := by
  unfold atCheck
  rw [reorder_sign]
  exact rebracket_sign h

/-- When the convergence check fails, `froot` and `fxMax_` have strictly opposite signs. -/
theorem atCheck_sign_strict {t : State α} (h : t.fxMin * t.fxMax ≤ 0)
    (hc : ¬ converged eps xAccuracy (atCheck t)) :
    (atCheck t).froot * (atCheck t).fxMax < 0 := by
  obtain ⟨-, hne⟩ := (not_converged_iff eps xAccuracy _).mp hc
  have hle : |(atCheck t).froot| ≤ |(atCheck t).fxMax| := reorder_abs_le _
  have hmax : (atCheck t).fxMax ≠ 0 := by
    intro h0
    rw [h0, abs_zero] at hle
    exact hne (abs_eq_zero.mp (le_antisymm hle (abs_nonneg _)))
  exact lt_of_le_of_ne (atCheck_sign h) (mul_ne_zero hne hmax)

theorem LoopHead.sign_le {n : Nat} {h : State α} (h0 : s.fxMin * s.fxMax ≤ 0)
    (hh : LoopHead f eps xAccuracy maxEvaluations s n h) : h.fxMin * h.fxMax ≤ 0 := by
  induction hh with
  | entry => exact h0
  | next _ _ hc ih => exact (atCheck_sign_strict ih hc).le

theorem init_consistent (h1 : s.fxMin = f s.xMin) (h2 : s.fxMax = f s.xMax) :
    Consistent f (init s) := ⟨h1, h2, h2⟩

theorem atCheck_consistent {t : State α} (h : Consistent f t) : Consistent f (atCheck t) := by
  have hr : Consistent f (rebracket t) := by
    unfold rebracket
    split_ifs
    · exact ⟨h.1, h.1, h.2.2⟩
    · exact h
  unfold atCheck reorder
  split_ifs
  · exact ⟨hr.2.2, hr.2.2, hr.2.1⟩
  · exact hr

theorem LoopHead.consistent {n : Nat} {h : State α} (h1 : s.fxMin = f s.xMin)
    (h2 : s.fxMax = f s.xMax) (hh : LoopHead f eps xAccuracy maxEvaluations s n h) :
    Consistent f h := by
  induction hh with
  | entry => exact init_consistent h1 h2
  | next _ _ _ ih =>
    have hc := atCheck_consistent ih
    exact ⟨hc.2.2, hc.2.1, rfl⟩

end Invariants

/-! ## Further facts about single passes -/

section Passes

variable {f : α → α} {eps xAccuracy : α} {maxEvaluations : Nat} {s : State α}

/-- With `froot == 0` neither the re-bracket step nor the swap changes anything. -/
theorem atCheck_of_froot_zero {t : State α} (h : t.froot = 0) : atCheck t = t := by
  unfold atCheck reorder rebracket
  have h1 : ¬ ((0 < t.froot ∧ 0 < t.fxMax) ∨ (t.froot < 0 ∧ t.fxMax < 0)) := by
    rw [h]
    simp
  rw [if_neg h1]
  have h2 : ¬ |t.fxMax| < |t.froot| := by
    rw [h, abs_zero]
    exact not_lt.mpr (abs_nonneg _)
  rw [if_neg h2]

/-- Only the most recent call of `f` can have produced an exact zero, and it is the call at the
current `root_`, whose value is stored in `froot`. -/
theorem LoopHead.zero_only_last {n : Nat} {h : State α}
    (hh : LoopHead f eps xAccuracy maxEvaluations s n h) :
    ∃ new : List α, h.calls = new ++ s.calls ∧
      (new = [] ∨ ∃ rest, new = h.root :: rest ∧ h.froot = f h.root ∧ ∀ y ∈ rest, f y ≠ 0) := by
  induction hh with
  | entry => exact ⟨[], rfl, Or.inl rfl⟩
  | @next k g _ _ hc ih =>
    obtain ⟨new, hnew, hcase⟩ := ih
    refine ⟨(iteration f eps xAccuracy g).root :: new, ?_, Or.inr ⟨new, rfl, rfl, ?_⟩⟩
    · rw [iteration_calls, hnew]
      rfl
    · rcases hcase with rfl | ⟨rest, rfl, hfr, hrest⟩
      · intro y hy
        cases hy
      · intro y hy
        rcases List.mem_cons.mp hy with rfl | hy
        · intro h0
          apply hc
          rw [atCheck_of_froot_zero (hfr.trans h0)]
          exact Or.inr (hfr.trans h0)
        · exact hrest y hy

theorem width_reorder (t : State α) : width (reorder t) = width t := by
  unfold reorder width
  split_ifs
  · exact abs_sub_comm _ _
  · rfl

/-- The width tested at the next convergence check is at most the width tested at this one. -/
theorem width_atCheck_iteration_le (t : State α)
    (hc : ¬ converged eps xAccuracy (atCheck t)) :
    width (atCheck (iteration f eps xAccuracy t)) ≤ width (atCheck t) := by
  have hd := delta_between eps xAccuracy (atCheck t) hc
  show width (reorder (rebracket (advance f eps xAccuracy (atCheck t)))) ≤ width (atCheck t)
  generalize atCheck t = c at hd ⊢
  rw [width_reorder]
  unfold rebracket
  split_ifs
  · show |c.root - (c.root + delta eps xAccuracy c)| ≤ |c.xMax - c.root|
    rw [abs_le]
    rcases hd with ⟨h0, h1⟩ | ⟨h1, h0⟩
    · rw [abs_of_nonneg (le_trans h0 h1)]
      constructor <;> linarith
    · rw [abs_of_nonpos (le_trans h1 h0)]
      constructor <;> linarith
  · show |c.xMax - (c.root + delta eps xAccuracy c)| ≤ |c.xMax - c.root|
    rw [abs_le]
    rcases hd with ⟨h0, h1⟩ | ⟨h1, h0⟩
    · rw [abs_of_nonneg (le_trans h0 h1)]
      constructor <;> linarith
    · rw [abs_of_nonpos (le_trans h1 h0)]
      constructor <;> linarith

/-- The first convergence check of a call whose bracket values have strictly opposite signs:
`froot` is non-zero, `root_` is one of the two initial endpoints and the pair tested is the
initial bracket. -/
theorem atCheck_init_strict (s : State α) (hbr : s.fxMin * s.fxMax < 0) :
    (atCheck (init s)).froot ≠ 0 ∧
      |xMid (atCheck (init s))| = |s.xMax - s.xMin| / 2 ∧
      ((atCheck (init s)).root = s.xMin ∨ (atCheck (init s)).root = s.xMax) := by
  have hmin : s.fxMin ≠ 0 := by
    intro h0
    rw [h0, zero_mul] at hbr
    exact lt_irrefl _ hbr
  have hmax : s.fxMax ≠ 0 := by
    intro h0
    rw [h0, mul_zero] at hbr
    exact lt_irrefl _ hbr
  have hre : rebracket (init s) =
      { init s with xMax := s.xMin, fxMax := s.fxMin, d := s.xMax - s.xMin,
                    e := s.xMax - s.xMin } := by
    unfold rebracket
    rw [if_pos]
    · rfl
    · show (0 < s.fxMax ∧ 0 < s.fxMax) ∨ (s.fxMax < 0 ∧ s.fxMax < 0)
      rcases lt_or_gt_of_ne hmax with hlt | hgt
      · exact Or.inr ⟨hlt, hlt⟩
      · exact Or.inl ⟨hgt, hgt⟩
  unfold atCheck
  rw [hre]
  unfold reorder xMid
  split_ifs
  · refine ⟨hmin, ?_, Or.inl rfl⟩
    show |(s.xMax - s.xMin) / 2| = |s.xMax - s.xMin| / 2
    rw [abs_div, abs_two]
  · refine ⟨hmax, ?_, Or.inr rfl⟩
    show |(s.xMin - s.xMax) / 2| = |s.xMax - s.xMin| / 2
    rw [abs_div, abs_two, abs_sub_comm]

end Passes

/-! ## Concrete runs -/

section Runs

variable (α)

theorem linear_atCheck_init : atCheck (init (linearEntry : State α)) = linearCheck0 := by
  simp [atCheck, reorder, rebracket, init, linearEntry, linearCheck0]
  norm_num

theorem linear_not_converged :
    ¬ converged (machineEps : α) 0 (atCheck (init (linearEntry : State α))) := by
  rw [linear_atCheck_init]
  simp [converged, xMid, xAcc1, linearCheck0, machineEps]
  norm_num

theorem linear_iteration :
    iteration linearFn machineEps 0 (init (linearEntry : State α)) = linearHead1 := by
  unfold iteration
  rw [linear_atCheck_init]
  simp [advance, delta, chooseStep, tryInterpolation, accepted, xMid, xAcc1, sign,
    linearCheck0, linearHead1, linearFn, machineEps]
  norm_num

theorem linear_head1 (maxEvaluations : Nat) (hM : 2 ≤ maxEvaluations) :
    LoopHead linearFn machineEps 0 maxEvaluations (linearEntry : State α) 1 linearHead1 := by
  have h := LoopHead.next
    (LoopHead.entry : LoopHead linearFn machineEps 0 maxEvaluations (linearEntry : State α) 0 _)
    hM (linear_not_converged α)
  rwa [linear_iteration] at h

theorem linear_atCheck_head1 : atCheck (linearHead1 : State α) = linearHead1 := by
  simp [atCheck, reorder, rebracket, linearHead1]

theorem linear_run :
    solveImpl linearFn machineEps 0 5 (linearEntry : State α) = Outcome.returned 0 linearHead1 := by
  rw [solveImpl_returned_iff]
  refine ⟨1, linearHead1, linear_head1 α 5 (by decide), by simp [linearHead1], ?_, ?_, ?_⟩
  · rw [linear_atCheck_head1]
    simp [converged, linearHead1]
  · rw [linear_atCheck_head1]
  · rw [linear_atCheck_head1]
    rfl

theorem square_atCheck_init : atCheck (init (squareEntry : State α)) = squareCheck0 := by
  simp [atCheck, reorder, rebracket, init, squareEntry, squareCheck0]

theorem square_not_converged :
    ¬ converged (machineEps : α) 1 (atCheck (init (squareEntry : State α))) := by
  rw [square_atCheck_init]
  simp [converged, xMid, xAcc1, squareCheck0, machineEps]
  norm_num

theorem square_iteration :
    iteration squareFn machineEps 1 (init (squareEntry : State α)) = squareHead1 := by
  unfold iteration
  rw [square_atCheck_init]
  simp [advance, delta, chooseStep, tryInterpolation, accepted, xMid, xAcc1, sign,
    squareCheck0, squareHead1, squareFn, machineEps]
  norm_num

theorem square_head1 (maxEvaluations : Nat) (hM : 2 ≤ maxEvaluations) :
    LoopHead squareFn machineEps 1 maxEvaluations (squareEntry : State α) 1 squareHead1 := by
  have h := LoopHead.next
    (LoopHead.entry : LoopHead squareFn machineEps 1 maxEvaluations (squareEntry : State α) 0 _)
    hM (square_not_converged α)
  rwa [square_iteration] at h

theorem square_atCheck_head1 : atCheck (squareHead1 : State α) = squareCheck1 := by
  simp [atCheck, reorder, rebracket, squareHead1, squareCheck1]
  norm_num

theorem square_run :
    solveImpl squareFn machineEps 1 100 (squareEntry : State α) = Outcome.returned 1 squareCheck1 := by
  rw [solveImpl_returned_iff]
  refine ⟨1, squareHead1, square_head1 α 100 (by decide), by simp [squareHead1], ?_, ?_, ?_⟩
  · rw [square_atCheck_head1]
    simp [converged, squareCheck1, xMid, xAcc1, machineEps]
    norm_num [abs_le]
  · rw [square_atCheck_head1]
  · rw [square_atCheck_head1]
    rfl

end Runs

/-! ## Counting the calls of `f` -/

section Calls

variable {f : α → α} {eps xAccuracy : α} {maxEvaluations : Nat} {s : State α}

/-- At the loop head reached after `n` passes exactly `n` calls of `f` have been made, and
`n` never exceeds `maxEvaluations_ + 1 - evaluationNumber_` (truncated subtraction). -/
theorem LoopHead.calls_eq {n : Nat} {h : State α}
    (hh : LoopHead f eps xAccuracy maxEvaluations s n h) :
    n ≤ maxEvaluations + 1 - s.evaluationNumber ∧
      ∃ new : List α, h.calls = new ++ s.calls ∧ new.length = n := by
  induction hh with
  | entry => exact ⟨Nat.zero_le _, [], rfl, rfl⟩
  | @next k g hg hle _ ih =>
    obtain ⟨-, new, hnew, hlen⟩ := ih
    refine ⟨?_, (iteration f eps xAccuracy g).root :: new, ?_, ?_⟩
    · rw [hg.evaluationNumber_eq] at hle
      omega
    · rw [iteration_calls, hnew]
      rfl
    · simp [hlen]

/-- The final state of the call is a loop head or the convergence check of one. -/
theorem solveImpl_final_head (f : α → α) (eps xAccuracy : α) (maxEvaluations : Nat)
    (s : State α) :
    ∃ n h, LoopHead f eps xAccuracy maxEvaluations s n h ∧
      (solveImpl f eps xAccuracy maxEvaluations s).final.calls = h.calls ∧
      (solveImpl f eps xAccuracy maxEvaluations s).final.evaluationNumber =
        h.evaluationNumber := by
  have hd := solveImpl_isDone f eps xAccuracy maxEvaluations s
  cases hr : solveImpl f eps xAccuracy maxEvaluations s with
  | returned r t =>
    obtain ⟨n, h, hh, -, -, rfl, -⟩ := solveImpl_returned_iff.mp hr
    exact ⟨n, h, hh, (atCheck_calls h).1, (atCheck_calls h).2⟩
  | failed m t =>
    obtain ⟨-, -, n, hh⟩ := solveImpl_failed_iff.mp hr
    exact ⟨n, t, hh, rfl, rfl⟩
  | outOfFuel t =>
    rw [hr] at hd
    simp [Outcome.isDone] at hd

end Calls

/-! ## Contract of `solveImpl` -/

section Contract

/-- C1. Success postcondition: whenever `solveImpl` returns `root` in final state `t`, then
`root` is `root_` of `t` and either the stored `froot` is zero or
`|(xMax_ - root_)/2| <= 2*eps*|root_| + xAccuracy/2` holds in `t`. -/
theorem solveImpl_success_postcondition (f : α → α) (eps xAccuracy : α) (maxEvaluations : Nat)
    (s : State α) (r : α) (t : State α)
    (h : solveImpl f eps xAccuracy maxEvaluations s = Outcome.returned r t) :
    r = t.root ∧
      (t.froot = 0 ∨ |(t.xMax - t.root) / 2| ≤ 2 * eps * |t.root| + xAccuracy / 2) := by
  obtain ⟨n, g, -, -, hc, rfl, rfl⟩ := solveImpl_returned_iff.mp h
  refine ⟨rfl, ?_⟩
  rw [← xAcc1_eq]
  rcases hc with hc | hc
  · exact Or.inr hc
  · exact Or.inl hc

theorem solveImpl_success_postcondition_witness :
    solveImpl squareFn machineEps 1 100 (squareEntry : State ℚ) = Outcome.returned 1 squareCheck1 ∧
      ((1 : ℚ) = (squareCheck1 : State ℚ).root ∧
        ((squareCheck1 : State ℚ).froot = 0 ∨
          |((squareCheck1 : State ℚ).xMax - (squareCheck1 : State ℚ).root) / 2| ≤
            2 * machineEps * |(squareCheck1 : State ℚ).root| + 1 / 2)) :=
  ⟨square_run ℚ,
    solveImpl_success_postcondition squareFn machineEps 1 100 squareEntry 1 squareCheck1 (square_run ℚ)⟩

/-- C3. The abscissae `xMin_`, `root_`, `xMax_` lie in the closed interval spanned by the initial
endpoints at every loop head, after the re-bracket step, at the convergence check and after the
advance step; hence any returned value lies in it. -/
theorem abscissae_stay_in_bracket (f : α → α) (eps xAccuracy : α) (maxEvaluations : Nat)
    (s : State α) :
    (∀ n h, LoopHead f eps xAccuracy maxEvaluations s n h →
      AbscissaeIn s h ∧ AbscissaeIn s (rebracket h) ∧ AbscissaeIn s (atCheck h) ∧
      (¬ converged eps xAccuracy (atCheck h) → AbscissaeIn s (iteration f eps xAccuracy h))) ∧
    (∀ r t, solveImpl f eps xAccuracy maxEvaluations s = Outcome.returned r t →
      InBracket s r) := by
  constructor
  · intro n h hh
    exact ⟨hh.abscissae, rebracket_abscissae hh.abscissae, atCheck_abscissae hh.abscissae,
      fun hc => advance_abscissae (atCheck_abscissae hh.abscissae) hc⟩
  · intro r t hr
    obtain ⟨n, g, hh, -, -, rfl, rfl⟩ := solveImpl_returned_iff.mp hr
    exact (atCheck_abscissae hh.abscissae).2.1

theorem abscissae_stay_in_bracket_witness :
    AbscissaeIn (squareEntry : State ℚ) squareHead1 ∧ InBracket (squareEntry : State ℚ) 1 :=
  ⟨((abscissae_stay_in_bracket squareFn machineEps 1 100 (squareEntry : State ℚ)).1 1 squareHead1
      (square_head1 ℚ 100 (by decide))).1,
    (abscissae_stay_in_bracket squareFn machineEps 1 100 (squareEntry : State ℚ)).2 1 squareCheck1
      (square_run ℚ)⟩

/-- C4. Failure condition: the call fails iff some loop head is reached (no earlier convergence
check having succeeded) with `evaluationNumber_ > maxEvaluations_`; the failure reports exactly
`maxEvaluations_` and then no value is returned; a returned value has
`evaluationNumber_ <= maxEvaluations_` at the moment of return; and when
`evaluationNumber_ > maxEvaluations_` on entry the call fails without calling `f`. -/
theorem solveImpl_failure_condition (f : α → α) (eps xAccuracy : α) (maxEvaluations : Nat)
    (s : State α) :
    ((∃ m t, solveImpl f eps xAccuracy maxEvaluations s = Outcome.failed m t) ↔
      ∃ n h, LoopHead f eps xAccuracy maxEvaluations s n h ∧
        maxEvaluations < h.evaluationNumber) ∧
    (∀ m t, solveImpl f eps xAccuracy maxEvaluations s = Outcome.failed m t →
      m = maxEvaluations ∧
        ∀ r u, solveImpl f eps xAccuracy maxEvaluations s ≠ Outcome.returned r u) ∧
    (∀ r t, solveImpl f eps xAccuracy maxEvaluations s = Outcome.returned r t →
      t.evaluationNumber ≤ maxEvaluations) ∧
    (maxEvaluations < s.evaluationNumber →
      solveImpl f eps xAccuracy maxEvaluations s = Outcome.failed maxEvaluations (init s) ∧
        (init s).calls = s.calls ∧ (init s).evaluationNumber = s.evaluationNumber) := by
  refine ⟨⟨?_, ?_⟩, ?_, ?_, ?_⟩
  · rintro ⟨m, t, hr⟩
    obtain ⟨-, hlt, n, hh⟩ := solveImpl_failed_iff.mp hr
    exact ⟨n, t, hh, hlt⟩
  · rintro ⟨n, h, hh, hlt⟩
    exact ⟨maxEvaluations, h, solveImpl_failed_iff.mpr ⟨rfl, hlt, n, hh⟩⟩
  · intro m t hr
    refine ⟨(solveImpl_failed_iff.mp hr).1, ?_⟩
    intro r u hu
    rw [hr] at hu
    cases hu
  · intro r t hr
    obtain ⟨n, g, -, hg, -, rfl, -⟩ := solveImpl_returned_iff.mp hr
    rw [(atCheck_calls g).2]
    exact hg
  · intro hlt
    exact ⟨solveImpl_failed_iff.mpr ⟨rfl, hlt, 0, LoopHead.entry⟩, rfl, rfl⟩

theorem solveImpl_failure_condition_witness :
    solveImpl linearFn machineEps 0 1 (linearEntry : State ℚ) = Outcome.failed 1 (init linearEntry) ∧
      (init (linearEntry : State ℚ)).calls = (linearEntry : State ℚ).calls ∧
      (init (linearEntry : State ℚ)).evaluationNumber =
        (linearEntry : State ℚ).evaluationNumber :=
  (solveImpl_failure_condition linearFn machineEps 0 1 (linearEntry : State ℚ)).2.2.2 (by decide)

/-- C5. Termination and evaluation budget: the call always ends in a `return` or the `QL_FAIL`
(and more loop-head visits change nothing); a pass that ends in a `return` does not call `f`,
every other pass calls `f` exactly once, at the new `root_`, and increments
`evaluationNumber_` by one; the number of calls of `f` made by the call is at most
`max(0, maxEvaluations_ - n0 + 1)` and equals the increase of the counter; and on failure with
`n0 <= maxEvaluations_ + 1` the counter equals `maxEvaluations_ + 1`. -/
theorem solveImpl_terminates_within_budget (f : α → α) (eps xAccuracy : α)
    (maxEvaluations : Nat) (s : State α) :
    (solveImpl f eps xAccuracy maxEvaluations s).isDone = true ∧
    (∀ fuel, maxEvaluations + 1 - s.evaluationNumber + 1 ≤ fuel →
      loop f eps xAccuracy maxEvaluations fuel (init s) =
        solveImpl f eps xAccuracy maxEvaluations s) ∧
    (∀ n h, LoopHead f eps xAccuracy maxEvaluations s n h →
      (atCheck h).calls = h.calls ∧
      (atCheck h).evaluationNumber = h.evaluationNumber ∧
      (iteration f eps xAccuracy h).calls = (iteration f eps xAccuracy h).root :: h.calls ∧
      (iteration f eps xAccuracy h).froot = f (iteration f eps xAccuracy h).root ∧
      (iteration f eps xAccuracy h).evaluationNumber = h.evaluationNumber + 1) ∧
    (∃ new : List α,
      (solveImpl f eps xAccuracy maxEvaluations s).final.calls = new ++ s.calls ∧
      new.length ≤ maxEvaluations + 1 - s.evaluationNumber ∧
      (solveImpl f eps xAccuracy maxEvaluations s).final.evaluationNumber =
        s.evaluationNumber + new.length) ∧
    (∀ m t, solveImpl f eps xAccuracy maxEvaluations s = Outcome.failed m t →
      s.evaluationNumber ≤ maxEvaluations + 1 → t.evaluationNumber = maxEvaluations + 1) := by
  refine ⟨solveImpl_isDone f eps xAccuracy maxEvaluations s, ?_, ?_, ?_, ?_⟩
  · intro fuel hfuel
    exact loop_fuel_mono f eps xAccuracy maxEvaluations hfuel (init s)
      (solveImpl_isDone f eps xAccuracy maxEvaluations s)
  · intro n h _
    exact ⟨(atCheck_calls h).1, (atCheck_calls h).2, iteration_calls f eps xAccuracy h,
      iteration_froot f eps xAccuracy h, iteration_evaluationNumber f eps xAccuracy h⟩
  · obtain ⟨n, h, hh, hc, he⟩ := solveImpl_final_head f eps xAccuracy maxEvaluations s
    obtain ⟨hn, new, hnew, hlen⟩ := hh.calls_eq
    refine ⟨new, ?_, ?_, ?_⟩
    · rw [hc, hnew]
    · rw [hlen]
      exact hn
    · rw [he, hh.evaluationNumber_eq, hlen]
  · intro m t hr hle
    obtain ⟨-, hlt, n, hh⟩ := solveImpl_failed_iff.mp hr
    have hn := hh.calls_eq.1
    have he := hh.evaluationNumber_eq
    omega

theorem solveImpl_terminates_within_budget_witness :
    (atCheck (squareHead1 : State ℚ)).calls = (squareHead1 : State ℚ).calls ∧
    (atCheck (squareHead1 : State ℚ)).evaluationNumber =
      (squareHead1 : State ℚ).evaluationNumber ∧
    (iteration squareFn machineEps 1 (squareHead1 : State ℚ)).calls =
      (iteration squareFn machineEps 1 (squareHead1 : State ℚ)).root :: (squareHead1 : State ℚ).calls ∧
    (iteration squareFn machineEps 1 (squareHead1 : State ℚ)).froot =
      squareFn (iteration squareFn machineEps 1 (squareHead1 : State ℚ)).root ∧
    (iteration squareFn machineEps 1 (squareHead1 : State ℚ)).evaluationNumber =
      (squareHead1 : State ℚ).evaluationNumber + 1 :=
  (solveImpl_terminates_within_budget squareFn machineEps 1 100 (squareEntry : State ℚ)).2.2.1 1
    squareHead1 (square_head1 ℚ 100 (by decide))

/-- C2. Convergence correctness over exact real arithmetic: for `f` continuous on the initial
bracket, stored endpoint values equal to `f` at the endpoints with `fxMin_*fxMax_ <= 0`,
`eps >= 0` and `xAccuracy >= 0`, a returned `root` is within `4*eps*|root| + xAccuracy` of a
zero of `f` lying in the initial bracket. -/
theorem solveImpl_root_near_zero (f : ℝ → ℝ) (eps xAccuracy : ℝ) (maxEvaluations : Nat)
    (s : State ℝ) (r : ℝ) (t : State ℝ)
    (hf : ContinuousOn f (Set.uIcc s.xMin s.xMax)) (heps : 0 ≤ eps) (hacc : 0 ≤ xAccuracy)
    (hmin : s.fxMin = f s.xMin) (hmax : s.fxMax = f s.xMax) (hbr : s.fxMin * s.fxMax ≤ 0)
    (h : solveImpl f eps xAccuracy maxEvaluations s = Outcome.returned r t) :
    ∃ x, f x = 0 ∧ InBracket s x ∧ |r - x| ≤ 4 * eps * |r| + xAccuracy := by
  obtain ⟨n, g, hh, -, hc, rfl, rfl⟩ := solveImpl_returned_iff.mp h
  have hcons := atCheck_consistent (hh.consistent hmin hmax)
  have hsgn := atCheck_sign (hh.sign_le hbr)
  have hin := atCheck_abscissae hh.abscissae
  generalize atCheck g = c at hc hcons hsgn hin
  obtain ⟨-, hfmax, hfroot⟩ := hcons
  by_cases h0 : c.froot = 0
  · refine ⟨c.root, by rw [← hfroot, h0], hin.2.1, ?_⟩
    rw [sub_self, abs_zero]
    exact add_nonneg (mul_nonneg (mul_nonneg (by norm_num) heps) (abs_nonneg _)) hacc
  · have hw : |xMid c| ≤ xAcc1 eps xAccuracy c := by
      rcases hc with hc | hc
      · exact hc
      · exact absurd hc h0
    have hsub : Set.uIcc c.root c.xMax ⊆ Set.uIcc s.xMin s.xMax :=
      Set.uIcc_subset_uIcc hin.2.1 hin.2.2
    have hivt := intermediate_value_uIcc (hf.mono hsub)
    have hzero : (0 : ℝ) ∈ Set.uIcc (f c.root) (f c.xMax) := by
      rw [← hfroot, ← hfmax, Set.mem_uIcc]
      rcases lt_or_gt_of_ne h0 with hneg | hpos
      · left
        refine ⟨hneg.le, ?_⟩
        by_contra hcon
        have := mul_pos_of_neg_of_neg hneg (not_le.mp hcon)
        linarith
      · right
        refine ⟨?_, hpos.le⟩
        by_contra hcon
        have := mul_pos hpos (not_le.mp hcon)
        linarith
    obtain ⟨x, hx, hfx⟩ := hivt hzero
    refine ⟨x, hfx, hsub hx, ?_⟩
    have h1 : |x - c.root| ≤ |c.xMax - c.root| := Set.abs_sub_left_of_mem_uIcc hx
    have h2 : |c.xMax - c.root| = 2 * |xMid c| := by
      unfold xMid
      rw [abs_div, abs_two]
      ring
    rw [xAcc1_eq] at hw
    rw [abs_sub_comm]
    linarith

theorem solveImpl_root_near_zero_witness :
    ∃ x : ℝ, squareFn x = 0 ∧ InBracket (squareEntry : State ℝ) x ∧
      |1 - x| ≤ 4 * machineEps * |(1 : ℝ)| + 1 :=
  solveImpl_root_near_zero squareFn machineEps 1 100 squareEntry 1 squareCheck1
    (by unfold squareFn; fun_prop) (by unfold machineEps; positivity) (by norm_num)
    (by simp [squareEntry, squareFn]) (by simp [squareEntry, squareFn]; norm_num)
    (by simp [squareEntry]) (square_run ℝ)

/-- C6 fails when the zero is found by the last evaluation the budget allows: for `f(x) = x` on
`[-1, 1]` with `maxEvaluations_ = 2` and two evaluations already counted, `f` is called once, at
`0`, where it is exactly zero, and the call fails instead of returning `0`. -/
theorem exact_zero_at_budget_fails :
    solveImpl linearFn machineEps 0 2 (linearEntry : State ℚ) = Outcome.failed 2 linearHead1 ∧
      (linearHead1 : State ℚ).calls = [0] ∧ linearFn (0 : ℚ) = 0 :=
  ⟨solveImpl_failed_iff.mpr ⟨rfl, by simp [linearHead1], 1, linear_head1 ℚ 2 (le_refl 2)⟩,
    rfl, rfl⟩

/-- C6, amended. If `f` is exactly zero at an abscissa `x` at which the call evaluated it, then
that evaluation was the last one (every earlier one gave a non-zero value), and the call
returns `x` provided the counter, already incremented for that evaluation, does not exceed
`maxEvaluations_`; otherwise the call fails. -/
theorem exact_zero_short_circuit (f : α → α) (eps xAccuracy : α) (maxEvaluations : Nat)
    (s : State α) (new : List α) (x : α)
    (hnew : (solveImpl f eps xAccuracy maxEvaluations s).final.calls = new ++ s.calls)
    (hx : x ∈ new) (hfx : f x = 0) :
    (∃ rest, new = x :: rest ∧ ∀ y ∈ rest, f y ≠ 0) ∧
    ((solveImpl f eps xAccuracy maxEvaluations s).final.evaluationNumber ≤ maxEvaluations →
      solveImpl f eps xAccuracy maxEvaluations s =
        Outcome.returned x (solveImpl f eps xAccuracy maxEvaluations s).final) ∧
    (maxEvaluations < (solveImpl f eps xAccuracy maxEvaluations s).final.evaluationNumber →
      solveImpl f eps xAccuracy maxEvaluations s =
        Outcome.failed maxEvaluations (solveImpl f eps xAccuracy maxEvaluations s).final) := by
  have key : ∀ (n : Nat) (g : State α), LoopHead f eps xAccuracy maxEvaluations s n g →
      g.calls = new ++ s.calls →
      (∃ rest, new = x :: rest ∧ ∀ y ∈ rest, f y ≠ 0) ∧ g.root = x ∧ g.froot = 0 := by
    intro n g hg hcalls
    obtain ⟨new', hnew', hcase⟩ := hg.zero_only_last
    have heq : new' = new := List.append_cancel_right (hnew'.symm.trans hcalls)
    subst heq
    rcases hcase with rfl | ⟨rest, rfl, hfr, hrest⟩
    · cases hx
    · rcases List.mem_cons.mp hx with rfl | hx'
      · exact ⟨⟨rest, rfl, hrest⟩, rfl, hfr.trans hfx⟩
      · exact absurd hfx (hrest x hx')
  have hd := solveImpl_isDone f eps xAccuracy maxEvaluations s
  cases hr : solveImpl f eps xAccuracy maxEvaluations s with
  | returned r t =>
    rw [hr] at hnew
    obtain ⟨n, g, hg, hle, -, rfl, rfl⟩ := solveImpl_returned_iff.mp hr
    obtain ⟨hlast, hroot, hz⟩ := key n g hg (by rw [← (atCheck_calls g).1]; exact hnew)
    refine ⟨hlast, ?_, ?_⟩
    · intro _
      rw [atCheck_of_froot_zero hz, hroot]
      rfl
    · intro hlt
      have : (atCheck g).evaluationNumber ≤ maxEvaluations := by
        rw [(atCheck_calls g).2]
        exact hle
      exact absurd hlt (Nat.not_lt.mpr this)
  | failed m t =>
    rw [hr] at hnew
    obtain ⟨rfl, hlt, n, hg⟩ := solveImpl_failed_iff.mp hr
    obtain ⟨hlast, -, -⟩ := key n t hg hnew
    refine ⟨hlast, ?_, ?_⟩
    · intro hle
      exact absurd hlt (Nat.not_lt.mpr hle)
    · intro _
      rfl
  | outOfFuel t =>
    rw [hr] at hd
    simp [Outcome.isDone] at hd

theorem exact_zero_short_circuit_witness :
    (∃ rest, [(0 : ℚ)] = 0 :: rest ∧ ∀ y ∈ rest, linearFn y ≠ 0) ∧
    ((solveImpl linearFn machineEps 0 5 (linearEntry : State ℚ)).final.evaluationNumber ≤ 5 →
      solveImpl linearFn machineEps 0 5 (linearEntry : State ℚ) =
        Outcome.returned 0 (solveImpl linearFn machineEps 0 5 (linearEntry : State ℚ)).final) ∧
    (5 < (solveImpl linearFn machineEps 0 5 (linearEntry : State ℚ)).final.evaluationNumber →
      solveImpl linearFn machineEps 0 5 (linearEntry : State ℚ) =
        Outcome.failed 5 (solveImpl linearFn machineEps 0 5 (linearEntry : State ℚ)).final) :=
  exact_zero_short_circuit linearFn machineEps 0 5 (linearEntry : State ℚ) [0] 0
    (by rw [linear_run]; rfl) (List.mem_singleton.mpr rfl) rfl

/-- C7. Budget enforcement with a tiny budget: with `fxMin_*fxMax_ < 0`, a bracket whose
half-width exceeds the effective tolerance at both endpoints, `maxEvaluations_ = 1` and
`evaluationNumber_ >= 1` on entry, the call fails reporting `1`, returns no root, and calls `f`
at most once. -/
theorem tiny_budget_fails (f : α → α) (eps xAccuracy : α) (s : State α)
    (hbr : s.fxMin * s.fxMax < 0)
    (hwMin : 2 * eps * |s.xMin| + xAccuracy / 2 < |s.xMax - s.xMin| / 2)
    (hwMax : 2 * eps * |s.xMax| + xAccuracy / 2 < |s.xMax - s.xMin| / 2)
    (hn : 1 ≤ s.evaluationNumber) :
    (∃ t new, solveImpl f eps xAccuracy 1 s = Outcome.failed 1 t ∧
      t.calls = new ++ s.calls ∧ new.length ≤ 1) ∧
    ∀ r u, solveImpl f eps xAccuracy 1 s ≠ Outcome.returned r u := by
  have hfail : ∃ t new, solveImpl f eps xAccuracy 1 s = Outcome.failed 1 t ∧
      t.calls = new ++ s.calls ∧ new.length ≤ 1 := by
    rcases Nat.lt_or_ge 1 s.evaluationNumber with hgt | hle
    · exact ⟨init s, [], solveImpl_failed_iff.mpr ⟨rfl, hgt, 0, LoopHead.entry⟩, rfl,
        Nat.zero_le _⟩
    · have hone : (init s).evaluationNumber ≤ 1 := hle
      obtain ⟨hne, hmid, hroot⟩ := atCheck_init_strict s hbr
      have hc : ¬ converged eps xAccuracy (atCheck (init s)) := by
        rw [not_converged_iff, xAcc1_eq, hmid]
        refine ⟨?_, hne⟩
        rcases hroot with h | h <;> rw [h]
        · exact hwMin
        · exact hwMax
      have hh : LoopHead f eps xAccuracy 1 s 1 (iteration f eps xAccuracy (init s)) :=
        LoopHead.next LoopHead.entry hone hc
      refine ⟨iteration f eps xAccuracy (init s), [(iteration f eps xAccuracy (init s)).root],
        solveImpl_failed_iff.mpr ⟨rfl, ?_, 1, hh⟩, ?_, le_refl 1⟩
      · rw [hh.evaluationNumber_eq]
        omega
      · rw [iteration_calls]
        rfl
  refine ⟨hfail, ?_⟩
  intro r u hr
  obtain ⟨t, new, ht, -, -⟩ := hfail
  rw [ht] at hr
  cases hr

theorem tiny_budget_fails_witness :
    (∃ t new, solveImpl squareFn machineEps 1 1
        ({ (squareEntry : State ℚ) with evaluationNumber := 1 }) = Outcome.failed 1 t ∧
      t.calls = new ++ ({ (squareEntry : State ℚ) with evaluationNumber := 1 }).calls ∧
      new.length ≤ 1) ∧
    ∀ r u, solveImpl squareFn machineEps 1 1
        ({ (squareEntry : State ℚ) with evaluationNumber := 1 }) ≠ Outcome.returned r u :=
  tiny_budget_fails squareFn machineEps 1 ({ (squareEntry : State ℚ) with evaluationNumber := 1 })
    (by simp [squareEntry]) (by simp [squareEntry, machineEps]; norm_num)
    (by simp [squareEntry, machineEps]; norm_num) (le_refl 1)

/-- C8. Bracket invariant at the loop head: if `fxMin_*fxMax_ <= 0` on entry, then at every loop
head `fxMin_*fxMax_ <= 0`, the two stored endpoint values never have the same strict sign, and at
every loop head after the first `fxMin_*fxMax_ < 0`. -/
theorem bracket_invariant_at_loop_head (f : α → α) (eps xAccuracy : α) (maxEvaluations : Nat)
    (s : State α) (h0 : s.fxMin * s.fxMax ≤ 0) (n : Nat) (h : State α)
    (hh : LoopHead f eps xAccuracy maxEvaluations s n h) :
    h.fxMin * h.fxMax ≤ 0 ∧ ¬ (0 < h.fxMin ∧ 0 < h.fxMax) ∧ ¬ (h.fxMin < 0 ∧ h.fxMax < 0) ∧
      (0 < n → h.fxMin * h.fxMax < 0) := by
  have hle := hh.sign_le h0
  refine ⟨hle, ?_, ?_, ?_⟩
  · rintro ⟨h1, h2⟩
    exact absurd (mul_pos h1 h2) (not_lt.mpr hle)
  · rintro ⟨h1, h2⟩
    exact absurd (mul_pos_of_neg_of_neg h1 h2) (not_lt.mpr hle)
  · intro hn
    cases hh with
    | entry => exact absurd hn (lt_irrefl 0)
    | next hp _ hc => exact atCheck_sign_strict (hp.sign_le h0) hc

theorem bracket_invariant_at_loop_head_witness :
    (squareHead1 : State ℚ).fxMin * (squareHead1 : State ℚ).fxMax ≤ 0 ∧
      ¬ (0 < (squareHead1 : State ℚ).fxMin ∧ 0 < (squareHead1 : State ℚ).fxMax) ∧
      ¬ ((squareHead1 : State ℚ).fxMin < 0 ∧ (squareHead1 : State ℚ).fxMax < 0) ∧
      (0 < 1 → (squareHead1 : State ℚ).fxMin * (squareHead1 : State ℚ).fxMax < 0) :=
  bracket_invariant_at_loop_head squareFn machineEps 1 100 (squareEntry : State ℚ)
    (by simp [squareEntry]) 1 squareHead1 (square_head1 ℚ 100 (by decide))

/-- C9. Re-bracketing keeps `root_` and `xMax_` on opposite sides: if `fxMin_*fxMax_ <= 0` on
entry, then in every pass `froot*fxMax_ <= 0` holds after the re-bracket step and still at the
convergence check. -/
theorem root_and_xMax_bracket (f : α → α) (eps xAccuracy : α) (maxEvaluations : Nat)
    (s : State α) (h0 : s.fxMin * s.fxMax ≤ 0) (n : Nat) (h : State α)
    (hh : LoopHead f eps xAccuracy maxEvaluations s n h) :
    (rebracket h).froot * (rebracket h).fxMax ≤ 0 ∧
      (atCheck h).froot * (atCheck h).fxMax ≤ 0 :=
  ⟨rebracket_sign (hh.sign_le h0), atCheck_sign (hh.sign_le h0)⟩

theorem root_and_xMax_bracket_witness :
    (rebracket (squareHead1 : State ℚ)).froot * (rebracket (squareHead1 : State ℚ)).fxMax ≤ 0 ∧
      (atCheck (squareHead1 : State ℚ)).froot * (atCheck (squareHead1 : State ℚ)).fxMax ≤ 0 :=
  root_and_xMax_bracket squareFn machineEps 1 100 (squareEntry : State ℚ)
    (by simp [squareEntry]) 1 squareHead1 (square_head1 ℚ 100 (by decide))

/-- C10. Monotone progress: the width `|xMax_ - root_|` measured at the convergence check of a
pass is at most the width measured at the convergence check of the preceding pass. -/
theorem width_nonincreasing (f : α → α) (eps xAccuracy : α) (maxEvaluations : Nat)
    (s : State α) (n : Nat) (h h' : State α)
    (hh : LoopHead f eps xAccuracy maxEvaluations s n h)
    (hh' : LoopHead f eps xAccuracy maxEvaluations s (n + 1) h') :
    width (atCheck h') ≤ width (atCheck h) := by
  cases hh' with
  | next hp _ hc =>
    rw [hh.unique hp]
    exact width_atCheck_iteration_le _ hc

theorem width_nonincreasing_witness :
    width (atCheck (squareHead1 : State ℚ)) ≤ width (atCheck (init (squareEntry : State ℚ))) :=
  width_nonincreasing squareFn machineEps 1 100 (squareEntry : State ℚ) 0 (init squareEntry) squareHead1
    LoopHead.entry (square_head1 ℚ 100 (by decide))

end Contract

/-! ## The interpolated step -/

section Interpolation

variable {f : α → α} {eps xAccuracy : α} {maxEvaluations : Nat} {s : State α}

/-- When the interpolation is attempted, `fxMin_` is non-zero and differs from `froot`. -/
theorem tryInterpolation_ne {c : State α} (ht : tryInterpolation eps xAccuracy c) :
    c.fxMin ≠ 0 ∧ c.froot ≠ c.fxMin := by
  obtain ⟨-, hlt⟩ := ht
  constructor
  · intro h0
    rw [h0, abs_zero] at hlt
    exact absurd hlt (not_lt.mpr (abs_nonneg _))
  · intro h0
    rw [h0] at hlt
    exact lt_irrefl _ hlt

/-- After a failed convergence check `froot` and `fxMax_` are non-zero. -/
theorem not_converged_ne (h : State α) (hc : ¬ converged eps xAccuracy (atCheck h)) :
    (atCheck h).froot ≠ 0 ∧ (atCheck h).fxMax ≠ 0 := by
  obtain ⟨-, hne⟩ := (not_converged_iff eps xAccuracy _).mp hc
  refine ⟨hne, ?_⟩
  intro h0
  have hle : |(atCheck h).froot| ≤ |(atCheck h).fxMax| := reorder_abs_le _
  rw [h0, abs_zero] at hle
  exact hne (abs_eq_zero.mp (le_antisymm hle (abs_nonneg _)))

/-- Sign normalisation (lines 84-85) turns `p/q` into `-(p/q)`. -/
theorem pNorm_div_qNorm (c : State α) : pNorm c / qNorm c = -(pRaw c / qRaw c) := by
  unfold pNorm qNorm
  split_ifs with hp
  · rw [abs_of_pos hp, div_neg]
  · rw [abs_of_nonpos (not_lt.mp hp), neg_div]

theorem accepted_qNorm_ne {c : State α} (ha : accepted eps xAccuracy c) : qNorm c ≠ 0 := by
  intro h0
  have h := (accepted_xMid_mul_qNorm_pos eps xAccuracy c ha).2
  rw [h0, mul_zero] at h
  exact lt_irrefl _ h

theorem accepted_qRaw_ne {c : State α} (ha : accepted eps xAccuracy c) : qRaw c ≠ 0 := by
  intro h0
  apply accepted_qNorm_ne ha
  unfold qNorm
  split_ifs
  · rw [h0, neg_zero]
  · exact h0

/-- The bounds enforced by the acceptance test of line 88. -/
theorem accepted_bounds {c : State α} (ha : accepted eps xAccuracy c) :
    0 ≤ pNorm c / qNorm c * xMid c ∧
      2 * |pNorm c / qNorm c| < 3 * |xMid c| - |xAcc1 eps xAccuracy c| ∧
      2 * |pNorm c / qNorm c| < |c.e| := by
  have hq := accepted_qNorm_ne ha
  have hqpos : 0 < |qNorm c| := abs_pos.mpr hq
  obtain ⟨-, hpos⟩ := accepted_xMid_mul_qNorm_pos eps xAccuracy c ha
  have hp := pNorm_nonneg c
  have h1 := accepted_lt_min1 eps xAccuracy c ha
  have h2 := accepted_lt_min2 eps xAccuracy c ha
  have habs : |pNorm c / qNorm c| = pNorm c / |qNorm c| := by
    rw [abs_div, abs_of_nonneg hp]
  have hmq : xMid c * qNorm c = |xMid c| * |qNorm c| := by
    rw [← abs_mul, abs_of_pos hpos]
  refine ⟨?_, ?_, ?_⟩
  · have : pNorm c / qNorm c * xMid c = pNorm c * (xMid c * qNorm c) / (qNorm c * qNorm c) := by
      field_simp
      ring
    rw [this]
    exact div_nonneg (mul_nonneg hp hpos.le) (mul_self_nonneg _)
  · rw [habs]
    unfold min1 at h1
    rw [abs_mul, mul_assoc, hmq] at h1
    have h3 : 2 * pNorm c < (3 * |xMid c| - |xAcc1 eps xAccuracy c|) * |qNorm c| := by
      linarith
    have := (div_lt_iff₀ hqpos).mpr h3
    calc 2 * (pNorm c / |qNorm c|) = 2 * pNorm c / |qNorm c| := by ring
      _ < _ := this
  · rw [habs]
    unfold min2 at h2
    rw [abs_mul] at h2
    have := (div_lt_iff₀ hqpos).mpr h2
    calc 2 * (pNorm c / |qNorm c|) = 2 * pNorm c / |qNorm c| := by ring
      _ < _ := this

/-- A re-bracket in a pass leaves `xMin_ == xMax_` at the convergence check. -/
theorem atCheck_xMin_eq_of_rebracket (h : State α)
    (hr : (0 < h.froot ∧ 0 < h.fxMax) ∨ (h.froot < 0 ∧ h.fxMax < 0)) :
    (atCheck h).xMin = (atCheck h).xMax := by
  unfold atCheck reorder rebracket
  rw [if_pos hr]
  split_ifs <;> rfl

/-- A swap in a pass leaves `xMin_ == xMax_` at the convergence check. -/
theorem atCheck_xMin_eq_of_swap (h : State α)
    (hs : |(rebracket h).fxMax| < |(rebracket h).froot|) :
    (atCheck h).xMin = (atCheck h).xMax := by
  unfold atCheck reorder
  rw [if_pos hs]

/-- Without re-bracket and swap the convergence check sees the loop-head state. -/
theorem atCheck_eq_self (h : State α)
    (hr : ¬ ((0 < h.froot ∧ 0 < h.fxMax) ∨ (h.froot < 0 ∧ h.fxMax < 0)))
    (hs : ¬ |(rebracket h).fxMax| < |(rebracket h).froot|) : atCheck h = h := by
  unfold atCheck reorder
  rw [if_neg hs]
  unfold rebracket
  rw [if_neg hr]

theorem rebracket_consistent {t : State α} (h : Consistent f t) : Consistent f (rebracket t) := by
  unfold rebracket
  split_ifs
  · exact ⟨h.1, h.1, h.2.2⟩
  · exact h

/-- With non-zero `fxMin_` and `fxMax_` the checked computation of `(p, q)` succeeds and agrees
with `pRaw`, `qRaw`. -/
theorem interpolantChecked_eq (c : State α) (hmin : c.fxMin ≠ 0) (hmax : c.fxMax ≠ 0) :
    interpolantChecked c = some (pRaw c, qRaw c) := by
  unfold interpolantChecked checkedDiv pRaw qRaw sRatio
  rw [if_neg hmin, if_neg hmax]
  split_ifs <;> rfl

theorem acceptChecked_eq (c : State α) :
    acceptChecked eps xAccuracy c (pRaw c, qRaw c) =
      if accepted eps xAccuracy c then
        (checkedDiv (pNorm c) (qNorm c)).map fun d => (d, c.d)
      else some (xMid c, xMid c) := rfl

end Interpolation

/-! ## The run of `x^2 - 2` on `[0, 2]` with `xAccuracy = 1/10^12` -/

section SqrtRun

theorem sqrt_atCheck_0 : atCheck (init (squareEntry : State ℚ)) = squareCheck0 :=
  square_atCheck_init ℚ

theorem sqrt_not_converged_0 : ¬ converged machineEps sqrtAccuracy (squareCheck0 : State ℚ) := by
  norm_num [converged, xMid, xAcc1, squareCheck0, machineEps, sqrtAccuracy, abs_div]

theorem sqrt_advance_0 :
    advance squareFn machineEps sqrtAccuracy (squareCheck0 : State ℚ) = squareHead1 := by
  norm_num [advance, delta, chooseStep, tryInterpolation, accepted, xMid, xAcc1, sign, min1, min2,
    pNorm, qNorm, pRaw, qRaw, sRatio, squareCheck0, squareHead1, squareFn, machineEps,
    sqrtAccuracy, abs_div]

theorem sqrt_atCheck_1 : atCheck (squareHead1 : State ℚ) = squareCheck1 :=
  square_atCheck_head1 ℚ

theorem sqrt_not_converged_1 : ¬ converged machineEps sqrtAccuracy (squareCheck1 : State ℚ) := by
  norm_num [converged, xMid, xAcc1, squareCheck1, machineEps, sqrtAccuracy, abs_div]

theorem sqrt_advance_1 :
    advance squareFn machineEps sqrtAccuracy (squareCheck1 : State ℚ) = sqrtHead2 := by
  norm_num [advance, delta, chooseStep, tryInterpolation, accepted, xMid, xAcc1, sign, min1, min2,
    pNorm, qNorm, pRaw, qRaw, sRatio, squareCheck1, sqrtHead2, squareFn, machineEps,
    sqrtAccuracy, abs_div]

theorem sqrt_atCheck_2 : atCheck sqrtHead2 = sqrtHead2 := by
  norm_num [atCheck, reorder, rebracket, sqrtHead2, abs_div]

theorem sqrt_not_converged_2 : ¬ converged machineEps sqrtAccuracy sqrtHead2 := by
  norm_num [converged, xMid, xAcc1, sqrtHead2, machineEps, sqrtAccuracy, abs_div]

theorem sqrt_advance_2 : advance squareFn machineEps sqrtAccuracy sqrtHead2 = sqrtHead3 := by
  norm_num [advance, delta, chooseStep, tryInterpolation, accepted, xMid, xAcc1, sign, min1, min2,
    pNorm, qNorm, pRaw, qRaw, sRatio, sqrtHead2, sqrtHead3, squareFn, machineEps,
    sqrtAccuracy, abs_div]

theorem sqrt_atCheck_3 : atCheck sqrtHead3 = sqrtCheck3 := by
  norm_num [atCheck, reorder, rebracket, sqrtHead3, sqrtCheck3, abs_div]

theorem sqrt_not_converged_3 : ¬ converged machineEps sqrtAccuracy sqrtCheck3 := by
  norm_num [converged, xMid, xAcc1, sqrtCheck3, machineEps, sqrtAccuracy, abs_div]

theorem sqrt_advance_3 : advance squareFn machineEps sqrtAccuracy sqrtCheck3 = sqrtHead4 := by
  norm_num [advance, delta, chooseStep, tryInterpolation, accepted, xMid, xAcc1, sign, min1, min2,
    pNorm, qNorm, pRaw, qRaw, sRatio, sqrtCheck3, sqrtHead4, squareFn, machineEps,
    sqrtAccuracy, abs_div]

theorem sqrt_atCheck_4 : atCheck sqrtHead4 = sqrtCheck4 := by
  norm_num [atCheck, reorder, rebracket, sqrtHead4, sqrtCheck4, abs_div]

theorem sqrt_not_converged_4 : ¬ converged machineEps sqrtAccuracy sqrtCheck4 := by
  norm_num [converged, xMid, xAcc1, sqrtCheck4, machineEps, sqrtAccuracy, abs_div]

theorem sqrt_advance_4 : advance squareFn machineEps sqrtAccuracy sqrtCheck4 = sqrtHead5 := by
  norm_num [advance, delta, chooseStep, tryInterpolation, accepted, xMid, xAcc1, sign, min1, min2,
    pNorm, qNorm, pRaw, qRaw, sRatio, sqrtCheck4, sqrtHead5, squareFn, machineEps,
    sqrtAccuracy, abs_div]

theorem sqrt_atCheck_5 : atCheck sqrtHead5 = sqrtHead5 := by
  norm_num [atCheck, reorder, rebracket, sqrtHead5, abs_div]

theorem sqrt_not_converged_5 : ¬ converged machineEps sqrtAccuracy sqrtHead5 := by
  norm_num [converged, xMid, xAcc1, sqrtHead5, machineEps, sqrtAccuracy, abs_div]

theorem sqrt_advance_5 : advance squareFn machineEps sqrtAccuracy sqrtHead5 = sqrtHead6 := by
  norm_num [advance, delta, chooseStep, tryInterpolation, accepted, xMid, xAcc1, sign, min1, min2,
    pNorm, qNorm, pRaw, qRaw, sRatio, sqrtHead5, sqrtHead6, squareFn, machineEps,
    sqrtAccuracy, abs_div]

theorem sqrt_atCheck_6 : atCheck sqrtHead6 = sqrtCheck6 := by
  norm_num [atCheck, reorder, rebracket, sqrtHead6, sqrtCheck6, abs_div]

theorem sqrt_not_converged_6 : ¬ converged machineEps sqrtAccuracy sqrtCheck6 := by
  norm_num [converged, xMid, xAcc1, sqrtCheck6, machineEps, sqrtAccuracy, abs_div]

theorem sqrt_advance_6 : advance squareFn machineEps sqrtAccuracy sqrtCheck6 = sqrtHead7 := by
  norm_num [advance, delta, chooseStep, tryInterpolation, accepted, xMid, xAcc1, sign, min1, min2,
    pNorm, qNorm, pRaw, qRaw, sRatio, sqrtCheck6, sqrtHead7, squareFn, machineEps,
    sqrtAccuracy, abs_div]

theorem sqrt_atCheck_7 : atCheck sqrtHead7 = sqrtCheck7 := by
  norm_num [atCheck, reorder, rebracket, sqrtHead7, sqrtCheck7, abs_div]

theorem sqrt_converged_7 : converged machineEps sqrtAccuracy sqrtCheck7 := by
  norm_num [converged, xMid, xAcc1, sqrtCheck7, machineEps, sqrtAccuracy, abs_div]

theorem sqrt_head_0 :
    LoopHead squareFn machineEps sqrtAccuracy 100 (squareEntry : State ℚ) 0 (init squareEntry) :=
  LoopHead.entry

theorem sqrt_head_1 :
    LoopHead squareFn machineEps sqrtAccuracy 100 (squareEntry : State ℚ) 1 squareHead1 := by
  have h := LoopHead.next sqrt_head_0 (by simp [init, squareEntry])
    (by rw [sqrt_atCheck_0]; exact sqrt_not_converged_0)
  unfold iteration at h
  rwa [sqrt_atCheck_0, sqrt_advance_0] at h

theorem sqrt_head_2 :
    LoopHead squareFn machineEps sqrtAccuracy 100 (squareEntry : State ℚ) 2 sqrtHead2 := by
  have h := LoopHead.next sqrt_head_1 (by simp [squareHead1])
    (by rw [sqrt_atCheck_1]; exact sqrt_not_converged_1)
  unfold iteration at h
  rwa [sqrt_atCheck_1, sqrt_advance_1] at h

theorem sqrt_head_3 :
    LoopHead squareFn machineEps sqrtAccuracy 100 (squareEntry : State ℚ) 3 sqrtHead3 := by
  have h := LoopHead.next sqrt_head_2 (by simp [sqrtHead2])
    (by rw [sqrt_atCheck_2]; exact sqrt_not_converged_2)
  unfold iteration at h
  rwa [sqrt_atCheck_2, sqrt_advance_2] at h

theorem sqrt_head_4 :
    LoopHead squareFn machineEps sqrtAccuracy 100 (squareEntry : State ℚ) 4 sqrtHead4 := by
  have h := LoopHead.next sqrt_head_3 (by simp [sqrtHead3])
    (by rw [sqrt_atCheck_3]; exact sqrt_not_converged_3)
  unfold iteration at h
  rwa [sqrt_atCheck_3, sqrt_advance_3] at h

theorem sqrt_head_5 :
    LoopHead squareFn machineEps sqrtAccuracy 100 (squareEntry : State ℚ) 5 sqrtHead5 := by
  have h := LoopHead.next sqrt_head_4 (by simp [sqrtHead4])
    (by rw [sqrt_atCheck_4]; exact sqrt_not_converged_4)
  unfold iteration at h
  rwa [sqrt_atCheck_4, sqrt_advance_4] at h

theorem sqrt_head_6 :
    LoopHead squareFn machineEps sqrtAccuracy 100 (squareEntry : State ℚ) 6 sqrtHead6 := by
  have h := LoopHead.next sqrt_head_5 (by simp [sqrtHead5])
    (by rw [sqrt_atCheck_5]; exact sqrt_not_converged_5)
  unfold iteration at h
  rwa [sqrt_atCheck_5, sqrt_advance_5] at h

theorem sqrt_head_7 :
    LoopHead squareFn machineEps sqrtAccuracy 100 (squareEntry : State ℚ) 7 sqrtHead7 := by
  have h := LoopHead.next sqrt_head_6 (by simp [sqrtHead6])
    (by rw [sqrt_atCheck_6]; exact sqrt_not_converged_6)
  unfold iteration at h
  rwa [sqrt_atCheck_6, sqrt_advance_6] at h

end SqrtRun

/-! ## The run of `x^3 - x - 2` on `[0, 3]` with `xAccuracy = 0` -/

section CubicRun

theorem cubic_atCheck_0 : atCheck (init (cubicEntry : State ℚ)) = cubicCheck0 := by
  norm_num [atCheck, reorder, rebracket, init, cubicEntry, cubicCheck0]

theorem cubic_not_converged_0 : ¬ converged machineEps 0 (cubicCheck0 : State ℚ) := by
  norm_num [converged, xMid, xAcc1, cubicCheck0, machineEps]

theorem cubic_delta_0 : delta machineEps 0 (cubicCheck0 : State ℚ) = 1 / 4 := by
  norm_num [delta, chooseStep, tryInterpolation, accepted, xMid, xAcc1, sign, min1, min2,
    pNorm, qNorm, pRaw, qRaw, sRatio, cubicCheck0, machineEps, abs_div]

theorem cubic_advance_0 :
    advance cubicFn machineEps 0 (cubicCheck0 : State ℚ) = cubicHead1 := by
  norm_num [advance, delta, chooseStep, tryInterpolation, accepted, xMid, xAcc1, sign, min1, min2,
    pNorm, qNorm, pRaw, qRaw, sRatio, cubicCheck0, cubicHead1, cubicFn, machineEps, abs_div]

theorem cubic_atCheck_1 : atCheck (cubicHead1 : State ℚ) = cubicHead1 := by
  norm_num [atCheck, reorder, rebracket, cubicHead1, abs_div]

theorem cubic_not_converged_1 : ¬ converged machineEps 0 (cubicHead1 : State ℚ) := by
  norm_num [converged, xMid, xAcc1, cubicHead1, machineEps, abs_div]

theorem cubic_advance_1 :
    advance cubicFn machineEps 0 (cubicHead1 : State ℚ) = cubicHead2 := by
  norm_num [advance, delta, chooseStep, tryInterpolation, accepted, xMid, xAcc1, sign, min1, min2,
    pNorm, qNorm, pRaw, qRaw, sRatio, cubicHead1, cubicHead2, cubicFn, machineEps, abs_div]

theorem cubic_atCheck_2 : atCheck (cubicHead2 : State ℚ) = cubicCheck2 := by
  norm_num [atCheck, reorder, rebracket, cubicHead2, cubicCheck2, abs_div]

theorem cubic_tryInterpolation_2 : tryInterpolation machineEps 0 (cubicCheck2 : State ℚ) := by
  norm_num [tryInterpolation, xAcc1, cubicCheck2, machineEps, abs_div]

theorem cubic_accepted_2 : accepted machineEps 0 (cubicCheck2 : State ℚ) := by
  norm_num [accepted, xMid, xAcc1, min1, min2, pNorm, qNorm, pRaw, qRaw, sRatio, cubicCheck2,
    machineEps, abs_div]

theorem cubic_step_2 : (chooseStep machineEps 0 (cubicCheck2 : State ℚ)).1 = -341 / 1080 := by
  unfold chooseStep
  rw [if_pos cubic_tryInterpolation_2, if_pos cubic_accepted_2]
  norm_num [xMid, pNorm, qNorm, pRaw, qRaw, sRatio, cubicCheck2, abs_div]

theorem cubic_head_1 :
    LoopHead cubicFn machineEps 0 100 (cubicEntry : State ℚ) 1 cubicHead1 := by
  have h := LoopHead.next
    (LoopHead.entry : LoopHead cubicFn machineEps 0 100 (cubicEntry : State ℚ) 0 _)
    (by simp [init, cubicEntry]) (by rw [cubic_atCheck_0]; exact cubic_not_converged_0)
  unfold iteration at h
  rwa [cubic_atCheck_0, cubic_advance_0] at h

theorem cubic_head_2 :
    LoopHead cubicFn machineEps 0 100 (cubicEntry : State ℚ) 2 cubicHead2 := by
  have h := LoopHead.next cubic_head_1 (by simp [cubicHead1])
    (by rw [cubic_atCheck_1]; exact cubic_not_converged_1)
  unfold iteration at h
  rwa [cubic_atCheck_1, cubic_advance_1] at h

end CubicRun

/-! ## Facts about the concrete states used below -/

section Facts

theorem square_tryInterpolation_1 :
    tryInterpolation machineEps sqrtAccuracy (squareCheck1 : State ℚ) := by
  norm_num [tryInterpolation, xAcc1, squareCheck1, machineEps, sqrtAccuracy, abs_div]

theorem square_accepted_1 : accepted machineEps sqrtAccuracy (squareCheck1 : State ℚ) := by
  norm_num [accepted, xMid, xAcc1, min1, min2, pNorm, qNorm, pRaw, qRaw, sRatio, squareCheck1,
    machineEps, sqrtAccuracy, abs_div]

theorem sqrt_tryInterpolation_2 : tryInterpolation machineEps sqrtAccuracy sqrtHead2 := by
  norm_num [tryInterpolation, xAcc1, sqrtHead2, machineEps, sqrtAccuracy, abs_div]

theorem sqrt_accepted_2 : accepted machineEps sqrtAccuracy sqrtHead2 := by
  norm_num [accepted, xMid, xAcc1, min1, min2, pNorm, qNorm, pRaw, qRaw, sRatio, sqrtHead2,
    machineEps, sqrtAccuracy, abs_div]

theorem sqrt_xMin_ne_xMax_2 : sqrtHead2.xMin ≠ sqrtHead2.xMax := by
  norm_num [sqrtHead2]

theorem machineEps_nonneg : (0 : ℚ) ≤ machineEps := by
  norm_num [machineEps]

theorem sqrtAccuracy_nonneg : (0 : ℚ) ≤ sqrtAccuracy := by
  norm_num [sqrtAccuracy]

theorem sqrt_run :
    solveImpl squareFn machineEps sqrtAccuracy 100 (squareEntry : State ℚ) =
      Outcome.returned sqrtCheck7.root sqrtCheck7 := by
  rw [solveImpl_returned_iff]
  refine ⟨7, sqrtHead7, sqrt_head_7, by simp [sqrtHead7], ?_, ?_, ?_⟩
  · rw [sqrt_atCheck_7]
    exact sqrt_converged_7
  · rw [sqrt_atCheck_7]
  · rw [sqrt_atCheck_7]

end Facts

/-! ## Behaviour of the passes -/

section Behaviour

/-- C11. Concrete scenario, in exact arithmetic with `QL_EPSILON = 2^-52`: for `f(x) = x^2 - 2`
on `[0, 2]` with `fxMin_ = -2`, `fxMax_ = 2`, `xAccuracy = 1e-12`, `maxEvaluations_ = 100` and two
evaluations already counted, the call does not fail; it returns, after seven calls of `f`, a
root within `1e-12` of `1.4142135623730951` whose square is within `1e-10` of `2`. -/
theorem sqrt_two_scenario :
    solveImpl squareFn machineEps sqrtAccuracy 100 (squareEntry : State ℚ) =
      Outcome.returned (983287022040720101857 / 695288921137698995757) sqrtCheck7 ∧
    sqrtCheck7.calls.length = 7 ∧
    |(983287022040720101857 / 695288921137698995757 : ℚ) - 14142135623730951 / 10 ^ 16|
      < 1 / 10 ^ 12 ∧
    |squareFn (983287022040720101857 / 695288921137698995757 : ℚ)| < 1 / 10 ^ 10 := by
  refine ⟨sqrt_run, ?_, ?_, ?_⟩
  · simp [sqrtCheck7]
  · norm_num [abs_lt]
  · norm_num [squareFn, abs_lt]

/-- C12. The two-point branch is the secant method: when the interpolation is attempted with
`xMin_ == xMax_` and accepted, `p = 2*xMid*s`, `q = 1 - s`, the step is `d = p/q` after sign
normalisation, and `root_ + d = root_ - froot*(root_ - xMin_)/(froot - fxMin_)`. -/
theorem two_point_step_is_secant (eps xAccuracy : α) (c : State α)
    (ht : tryInterpolation eps xAccuracy c) (heq : c.xMin = c.xMax)
    (ha : accepted eps xAccuracy c) :
    pRaw c = 2 * xMid c * (c.froot / c.fxMin) ∧ qRaw c = 1 - c.froot / c.fxMin ∧
    (chooseStep eps xAccuracy c).1 = pNorm c / qNorm c ∧
    c.root + (chooseStep eps xAccuracy c).1 =
      c.root - c.froot * (c.root - c.xMin) / (c.froot - c.fxMin) := by
  obtain ⟨hmin, hne⟩ := tryInterpolation_ne ht
  have hp : pRaw c = 2 * xMid c * (c.froot / c.fxMin) := by
    unfold pRaw sRatio
    rw [if_pos heq]
  have hq : qRaw c = 1 - c.froot / c.fxMin := by
    unfold qRaw sRatio
    rw [if_pos heq]
  have hd : (chooseStep eps xAccuracy c).1 = pNorm c / qNorm c := by
    unfold chooseStep
    rw [if_pos ht, if_pos ha]
  refine ⟨hp, hq, hd, ?_⟩
  rw [hd, pNorm_div_qNorm, hp, hq, two_mul_xMid, ← heq]
  have h1 : c.froot - c.fxMin ≠ 0 := sub_ne_zero.mpr hne
  have h2 : c.fxMin - c.froot ≠ 0 := sub_ne_zero.mpr (Ne.symm hne)
  have h3 : 1 - c.froot / c.fxMin ≠ 0 := by
    rw [one_sub_div hmin]
    exact div_ne_zero h2 hmin
  field_simp
  ring

theorem two_point_step_is_secant_witness :
    pRaw (squareCheck1 : State ℚ) =
      2 * xMid (squareCheck1 : State ℚ) *
        ((squareCheck1 : State ℚ).froot / (squareCheck1 : State ℚ).fxMin) ∧
    qRaw (squareCheck1 : State ℚ) =
      1 - (squareCheck1 : State ℚ).froot / (squareCheck1 : State ℚ).fxMin ∧
    (chooseStep machineEps sqrtAccuracy (squareCheck1 : State ℚ)).1 =
      pNorm (squareCheck1 : State ℚ) / qNorm (squareCheck1 : State ℚ) ∧
    (squareCheck1 : State ℚ).root + (chooseStep machineEps sqrtAccuracy squareCheck1).1 =
      (squareCheck1 : State ℚ).root -
        (squareCheck1 : State ℚ).froot *
          ((squareCheck1 : State ℚ).root - (squareCheck1 : State ℚ).xMin) /
          ((squareCheck1 : State ℚ).froot - (squareCheck1 : State ℚ).fxMin) :=
  two_point_step_is_secant machineEps sqrtAccuracy squareCheck1 square_tryInterpolation_1 rfl
    square_accepted_1

/-- C13. The three-point branch is inverse quadratic interpolation: when, after a failed
convergence check, the interpolation is attempted with `xMin_ != xMax_` and accepted, the stored
values `fa = fxMin_`, `fb = froot`, `fc = fxMax_` are pairwise distinct, the step is `d = p/q`
after sign normalisation, and `b + d` (with `a = xMin_`, `b = root_`, `c = xMax_`) is the value
at `0` of the Lagrange quadratic interpolating `x` as a function of `f`. -/
theorem three_point_step_is_inverse_quadratic (eps xAccuracy : α) (h : State α)
    (hc : ¬ converged eps xAccuracy (atCheck h))
    (ht : tryInterpolation eps xAccuracy (atCheck h))
    (hne : (atCheck h).xMin ≠ (atCheck h).xMax)
    (ha : accepted eps xAccuracy (atCheck h)) :
    (atCheck h).fxMin ≠ (atCheck h).froot ∧ (atCheck h).froot ≠ (atCheck h).fxMax ∧
    (atCheck h).fxMin ≠ (atCheck h).fxMax ∧
    (chooseStep eps xAccuracy (atCheck h)).1 = pNorm (atCheck h) / qNorm (atCheck h) ∧
    (atCheck h).root + (chooseStep eps xAccuracy (atCheck h)).1 =
      (atCheck h).xMin * (atCheck h).froot * (atCheck h).fxMax /
          (((atCheck h).fxMin - (atCheck h).froot) * ((atCheck h).fxMin - (atCheck h).fxMax)) +
        (atCheck h).root * (atCheck h).fxMin * (atCheck h).fxMax /
          (((atCheck h).froot - (atCheck h).fxMin) * ((atCheck h).froot - (atCheck h).fxMax)) +
        (atCheck h).xMax * (atCheck h).fxMin * (atCheck h).froot /
          (((atCheck h).fxMax - (atCheck h).fxMin) * ((atCheck h).fxMax - (atCheck h).froot)) := by
  obtain ⟨-, hmax⟩ := not_converged_ne h hc
  generalize atCheck h = c at ht hne ha hmax
  obtain ⟨hmin, hba⟩ := tryInterpolation_ne ht
  have hq0 := accepted_qRaw_ne ha
  have hq : qRaw c =
      (c.fxMin / c.fxMax - 1) * (c.froot / c.fxMax - 1) * (c.froot / c.fxMin - 1) := by
    unfold qRaw sRatio
    rw [if_neg hne]
  have hp : pRaw c = c.froot / c.fxMin *
      (2 * xMid c * (c.fxMin / c.fxMax) * (c.fxMin / c.fxMax - c.froot / c.fxMax)
        - (c.root - c.xMin) * (c.froot / c.fxMax - 1)) := by
    unfold pRaw sRatio
    rw [if_neg hne]
  have hd : (chooseStep eps xAccuracy c).1 = pNorm c / qNorm c := by
    unfold chooseStep
    rw [if_pos ht, if_pos ha]
  rw [hq] at hq0
  have hac : c.fxMin ≠ c.fxMax := by
    intro heq
    apply hq0
    rw [heq, div_self hmax, sub_self, zero_mul, zero_mul]
  have hbc : c.froot ≠ c.fxMax := by
    intro heq
    apply hq0
    rw [heq, div_self hmax, sub_self, mul_zero, zero_mul]
  refine ⟨Ne.symm hba, hbc, hac, hd, ?_⟩
  rw [hd, pNorm_div_qNorm, hp, hq, two_mul_xMid]
  have h1 : c.fxMin - c.froot ≠ 0 := sub_ne_zero.mpr (Ne.symm hba)
  have h2 : c.fxMin - c.fxMax ≠ 0 := sub_ne_zero.mpr hac
  have h3 : c.froot - c.fxMin ≠ 0 := sub_ne_zero.mpr hba
  have h4 : c.froot - c.fxMax ≠ 0 := sub_ne_zero.mpr hbc
  have h5 : c.fxMax - c.fxMin ≠ 0 := sub_ne_zero.mpr (Ne.symm hac)
  have h6 : c.fxMax - c.froot ≠ 0 := sub_ne_zero.mpr (Ne.symm hbc)
  have h7 : c.fxMin / c.fxMax - 1 ≠ 0 := by
    rw [div_sub_one hmax]
    exact div_ne_zero h2 hmax
  have h8 : c.froot / c.fxMax - 1 ≠ 0 := by
    rw [div_sub_one hmax]
    exact div_ne_zero h4 hmax
  have h9 : c.froot / c.fxMin - 1 ≠ 0 := by
    rw [div_sub_one hmin]
    exact div_ne_zero h3 hmin
  field_simp
  ring

theorem three_point_step_is_inverse_quadratic_witness :
    (atCheck sqrtHead2).root + (chooseStep machineEps sqrtAccuracy (atCheck sqrtHead2)).1 =
      (atCheck sqrtHead2).xMin * (atCheck sqrtHead2).froot * (atCheck sqrtHead2).fxMax /
          (((atCheck sqrtHead2).fxMin - (atCheck sqrtHead2).froot) *
            ((atCheck sqrtHead2).fxMin - (atCheck sqrtHead2).fxMax)) +
        (atCheck sqrtHead2).root * (atCheck sqrtHead2).fxMin * (atCheck sqrtHead2).fxMax /
          (((atCheck sqrtHead2).froot - (atCheck sqrtHead2).fxMin) *
            ((atCheck sqrtHead2).froot - (atCheck sqrtHead2).fxMax)) +
        (atCheck sqrtHead2).xMax * (atCheck sqrtHead2).fxMin * (atCheck sqrtHead2).froot /
          (((atCheck sqrtHead2).fxMax - (atCheck sqrtHead2).fxMin) *
            ((atCheck sqrtHead2).fxMax - (atCheck sqrtHead2).froot)) :=
  (three_point_step_is_inverse_quadratic machineEps sqrtAccuracy sqrtHead2
    (by rw [sqrt_atCheck_2]; exact sqrt_not_converged_2)
    (by rw [sqrt_atCheck_2]; exact sqrt_tryInterpolation_2)
    (by rw [sqrt_atCheck_2]; exact sqrt_xMin_ne_xMax_2)
    (by rw [sqrt_atCheck_2]; exact sqrt_accepted_2)).2.2.2.2

/-- C14. Three distinct values in the three-point branch: if `fxMin_*fxMax_ <= 0` on entry, then
in a pass that reaches the general branch (failed convergence check, interpolation attempted,
`xMin_ != xMax_`) neither the re-bracket nor the swap happened, `fxMin_`, `froot`, `fxMax_` are
pairwise distinct and the denominator `(q-1)*(r-1)*(s-1)` is non-zero; and any pass, from any
state, that re-brackets or swaps has `xMin_ == xMax_` and the two-point values of `p` and `q`. -/
theorem general_branch_has_three_values (f : α → α) (eps xAccuracy : α) (maxEvaluations : Nat)
    (s : State α) (h0 : s.fxMin * s.fxMax ≤ 0) (n : Nat) (h : State α)
    (hh : LoopHead f eps xAccuracy maxEvaluations s n h)
    (hc : ¬ converged eps xAccuracy (atCheck h))
    (ht : tryInterpolation eps xAccuracy (atCheck h))
    (hne : (atCheck h).xMin ≠ (atCheck h).xMax) :
    ¬ ((0 < h.froot ∧ 0 < h.fxMax) ∨ (h.froot < 0 ∧ h.fxMax < 0)) ∧
    ¬ |(rebracket h).fxMax| < |(rebracket h).froot| ∧
    atCheck h = h ∧
    h.fxMin ≠ h.froot ∧ h.froot ≠ h.fxMax ∧ h.fxMin ≠ h.fxMax ∧
    qRaw (atCheck h) =
      (h.fxMin / h.fxMax - 1) * (h.froot / h.fxMax - 1) * (h.froot / h.fxMin - 1) ∧
    qRaw (atCheck h) ≠ 0 ∧
    ∀ g : State α,
      (((0 < g.froot ∧ 0 < g.fxMax) ∨ (g.froot < 0 ∧ g.fxMax < 0)) ∨
        |(rebracket g).fxMax| < |(rebracket g).froot|) →
      (atCheck g).xMin = (atCheck g).xMax ∧
        pRaw (atCheck g) = 2 * xMid (atCheck g) * sRatio (atCheck g) ∧
        qRaw (atCheck g) = 1 - sRatio (atCheck g) := by
  have hr : ¬ ((0 < h.froot ∧ 0 < h.fxMax) ∨ (h.froot < 0 ∧ h.fxMax < 0)) :=
    fun hcon => hne (atCheck_xMin_eq_of_rebracket h hcon)
  have hs : ¬ |(rebracket h).fxMax| < |(rebracket h).froot| :=
    fun hcon => hne (atCheck_xMin_eq_of_swap h hcon)
  have heq : atCheck h = h := atCheck_eq_self h hr hs
  obtain ⟨hfr, hmax⟩ := not_converged_ne h hc
  rw [heq] at hc ht hne hfr hmax
  obtain ⟨hmin, hba⟩ := tryInterpolation_ne ht
  have hlt : h.fxMin * h.fxMax < 0 := by
    cases hh with
    | entry =>
      exfalso
      apply hr
      have hfm : (init s).froot = (init s).fxMax := rfl
      rw [hfm]
      rcases lt_or_gt_of_ne hmax with hneg | hpos
      · exact Or.inr ⟨hneg, hneg⟩
      · exact Or.inl ⟨hpos, hpos⟩
    | next hp _ hcp => exact atCheck_sign_strict (hp.sign_le h0) hcp
  have hbc : h.froot ≠ h.fxMax := by
    intro hcon
    apply hr
    rw [hcon]
    rcases lt_or_gt_of_ne hmax with hneg | hpos
    · exact Or.inr ⟨hneg, hneg⟩
    · exact Or.inl ⟨hpos, hpos⟩
  have hac : h.fxMin ≠ h.fxMax := by
    intro hcon
    rw [hcon] at hlt
    exact absurd hlt (not_lt.mpr (mul_self_nonneg _))
  have hq : qRaw h =
      (h.fxMin / h.fxMax - 1) * (h.froot / h.fxMax - 1) * (h.froot / h.fxMin - 1) := by
    unfold qRaw sRatio
    rw [if_neg hne]
  have hq0 : qRaw h ≠ 0 := by
    rw [hq]
    refine mul_ne_zero (mul_ne_zero ?_ ?_) ?_
    · rw [div_sub_one hmax]
      exact div_ne_zero (sub_ne_zero.mpr hac) hmax
    · rw [div_sub_one hmax]
      exact div_ne_zero (sub_ne_zero.mpr hbc) hmax
    · rw [div_sub_one hmin]
      exact div_ne_zero (sub_ne_zero.mpr hba) hmin
  refine ⟨hr, hs, heq, Ne.symm hba, hbc, hac, ?_, ?_, ?_⟩
  · rw [heq]
    exact hq
  · rw [heq]
    exact hq0
  · intro g hg
    have hx : (atCheck g).xMin = (atCheck g).xMax := by
      rcases hg with hg | hg
      · exact atCheck_xMin_eq_of_rebracket g hg
      · exact atCheck_xMin_eq_of_swap g hg
    refine ⟨hx, ?_, ?_⟩
    · unfold pRaw
      rw [if_pos hx]
    · unfold qRaw
      rw [if_pos hx]

theorem general_branch_has_three_values_witness :
    atCheck sqrtHead2 = sqrtHead2 ∧
    sqrtHead2.fxMin ≠ sqrtHead2.froot ∧ sqrtHead2.froot ≠ sqrtHead2.fxMax ∧
    sqrtHead2.fxMin ≠ sqrtHead2.fxMax ∧ qRaw (atCheck sqrtHead2) ≠ 0 :=
  have h := general_branch_has_three_values squareFn machineEps sqrtAccuracy 100
    (squareEntry : State ℚ) (by simp [squareEntry]) 2 sqrtHead2 sqrt_head_2
    (by rw [sqrt_atCheck_2]; exact sqrt_not_converged_2)
    (by rw [sqrt_atCheck_2]; exact sqrt_tryInterpolation_2)
    (by rw [sqrt_atCheck_2]; exact sqrt_xMin_ne_xMax_2)
  ⟨h.2.2.1, h.2.2.2.1, h.2.2.2.2.1, h.2.2.2.2.2.1, h.2.2.2.2.2.2.2.1⟩

/-- C15 fails in its last clause: in the run of `x^3 - x - 2` on `[0, 3]` the first pass takes
the step `1/4`, the second pass bisects, and the third pass accepts the secant step
`-341/1080`, which is not shorter than half of the step `1/4` taken two passes earlier. -/
theorem accepted_step_exceeds_older_step :
    LoopHead cubicFn machineEps 0 100 (cubicEntry : State ℚ) 2 cubicHead2 ∧
    tryInterpolation machineEps 0 (atCheck (cubicHead2 : State ℚ)) ∧
    accepted machineEps 0 (atCheck (cubicHead2 : State ℚ)) ∧
    (chooseStep machineEps 0 (atCheck (cubicHead2 : State ℚ))).1 = -341 / 1080 ∧
    delta machineEps 0 (atCheck (init (cubicEntry : State ℚ))) = 1 / 4 ∧
    ¬ (|(-341 / 1080 : ℚ)| < |(1 / 4 : ℚ)| / 2) := by
  refine ⟨cubic_head_2, ?_, ?_, ?_, ?_, ?_⟩
  · rw [cubic_atCheck_2]
    exact cubic_tryInterpolation_2
  · rw [cubic_atCheck_2]
    exact cubic_accepted_2
  · rw [cubic_atCheck_2]
    exact cubic_step_2
  · rw [cubic_atCheck_0]
    exact cubic_delta_0
  · norm_num [abs_div]

/-- C15, amended. Whenever the interpolation is attempted and the test
`2*p < min(min1, min2)` succeeds, `q != 0`, the step `d = p/q` points toward `xMax_`
(`d*xMid >= 0`) and satisfies `2*|d| < 3*|xMid| - |xAcc1|` and `2*|d| < |e_prev|`, where `e_prev`
is the value of `e` before it is overwritten (by the previous `d`); in particular the step is
shorter than three quarters of the width `|xMax_ - root_|` and shorter than half of `|e_prev|`. -/
theorem accepted_step_bounds (eps xAccuracy : α) (c : State α)
    (ht : tryInterpolation eps xAccuracy c) (ha : accepted eps xAccuracy c) :
    qNorm c ≠ 0 ∧
    chooseStep eps xAccuracy c = (pNorm c / qNorm c, c.d) ∧
    0 ≤ pNorm c / qNorm c * xMid c ∧
    2 * |pNorm c / qNorm c| < 3 * |xMid c| - |xAcc1 eps xAccuracy c| ∧
    2 * |pNorm c / qNorm c| < |c.e| ∧
    |pNorm c / qNorm c| < 3 / 4 * |c.xMax - c.root| ∧
    |pNorm c / qNorm c| < |c.e| / 2 := by
  obtain ⟨h1, h2, h3⟩ := accepted_bounds ha
  have hstep : chooseStep eps xAccuracy c = (pNorm c / qNorm c, c.d) := by
    unfold chooseStep
    rw [if_pos ht, if_pos ha]
  have hw : |c.xMax - c.root| = 2 * |xMid c| := by
    rw [← two_mul_xMid, abs_mul, abs_two]
  have hacc : 0 ≤ |xAcc1 eps xAccuracy c| := abs_nonneg _
  refine ⟨accepted_qNorm_ne ha, hstep, h1, h2, h3, ?_, ?_⟩
  · rw [hw]
    linarith
  · linarith

theorem accepted_step_bounds_witness :
    qNorm (squareCheck1 : State ℚ) ≠ 0 ∧
    chooseStep machineEps sqrtAccuracy (squareCheck1 : State ℚ) =
      (pNorm (squareCheck1 : State ℚ) / qNorm (squareCheck1 : State ℚ),
        (squareCheck1 : State ℚ).d) ∧
    0 ≤ pNorm (squareCheck1 : State ℚ) / qNorm (squareCheck1 : State ℚ) *
      xMid (squareCheck1 : State ℚ) ∧
    2 * |pNorm (squareCheck1 : State ℚ) / qNorm (squareCheck1 : State ℚ)| <
      3 * |xMid (squareCheck1 : State ℚ)| - |xAcc1 machineEps sqrtAccuracy squareCheck1| ∧
    2 * |pNorm (squareCheck1 : State ℚ) / qNorm (squareCheck1 : State ℚ)| <
      |(squareCheck1 : State ℚ).e| ∧
    |pNorm (squareCheck1 : State ℚ) / qNorm (squareCheck1 : State ℚ)| <
      3 / 4 * |(squareCheck1 : State ℚ).xMax - (squareCheck1 : State ℚ).root| ∧
    |pNorm (squareCheck1 : State ℚ) / qNorm (squareCheck1 : State ℚ)| <
      |(squareCheck1 : State ℚ).e| / 2 :=
  accepted_step_bounds machineEps sqrtAccuracy squareCheck1 square_tryInterpolation_1
    square_accepted_1

/-- C16. The advance step makes bounded, measurable progress: with `eps >= 0` and
`xAccuracy >= 0`, after a failed convergence check the new estimate is `root_ + delta` where
`delta` points toward `xMax_` (`delta*xMid >= 0`), `|delta| >= xAcc1` and
`|delta| < |xMax_ - root_|`; the old estimate and its value become `xMin_` and `fxMin_`, and
`xMax_`, `fxMax_` are kept. -/
theorem advance_makes_progress (f : α → α) (eps xAccuracy : α) (c : State α)
    (heps : 0 ≤ eps) (hacc : 0 ≤ xAccuracy) (hc : ¬ converged eps xAccuracy c) :
    0 ≤ delta eps xAccuracy c * xMid c ∧
    xAcc1 eps xAccuracy c ≤ |delta eps xAccuracy c| ∧
    |delta eps xAccuracy c| < |c.xMax - c.root| ∧
    (advance f eps xAccuracy c).root = c.root + delta eps xAccuracy c ∧
    (advance f eps xAccuracy c).froot = f (c.root + delta eps xAccuracy c) ∧
    (advance f eps xAccuracy c).xMin = c.root ∧
    (advance f eps xAccuracy c).fxMin = c.froot ∧
    (advance f eps xAccuracy c).xMax = c.xMax ∧
    (advance f eps xAccuracy c).fxMax = c.fxMax := by
  obtain ⟨hlt, -⟩ := (not_converged_iff eps xAccuracy c).mp hc
  have ha0 : 0 ≤ xAcc1 eps xAccuracy c := by
    rw [xAcc1_eq]
    have h1 : 0 ≤ 2 * eps * |c.root| := mul_nonneg (mul_nonneg (by norm_num) heps) (abs_nonneg _)
    linarith
  have hmpos : 0 < |xMid c| := lt_of_le_of_lt ha0 hlt
  have hw : |c.xMax - c.root| = 2 * |xMid c| := by
    rw [← two_mul_xMid, abs_mul, abs_two]
  refine ⟨?_, ?_, ?_, rfl, rfl, rfl, rfl, rfl, rfl⟩
  · unfold delta
    split_ifs with hd
    · rcases chooseStep_between eps xAccuracy c with ⟨h0, h1⟩ | ⟨h1, h0⟩
      · exact mul_nonneg h0 (by linarith)
      · exact mul_nonneg_of_nonpos_of_nonpos h0 (by linarith)
    · unfold sign
      rw [abs_of_nonneg ha0]
      split_ifs with hm
      · exact mul_nonneg ha0 hm
      · exact mul_nonneg_of_nonpos_of_nonpos (by linarith) (not_le.mp hm).le
  · unfold delta
    split_ifs with hd
    · exact hd.le
    · unfold sign
      split_ifs
      · rw [abs_abs]
        exact le_abs_self _
      · rw [abs_neg, abs_abs]
        exact le_abs_self _
  · rw [hw]
    unfold delta
    split_ifs with hd
    · unfold chooseStep
      split_ifs with ht hacp
      · have := (accepted_bounds hacp).2.1
        have hx : 0 ≤ |xAcc1 eps xAccuracy c| := abs_nonneg _
        show |pNorm c / qNorm c| < 2 * |xMid c|
        linarith
      · show |xMid c| < 2 * |xMid c|
        linarith
      · show |xMid c| < 2 * |xMid c|
        linarith
    · unfold sign
      split_ifs
      · rw [abs_abs, abs_of_nonneg ha0]
        linarith
      · rw [abs_neg, abs_abs, abs_of_nonneg ha0]
        linarith

theorem advance_makes_progress_witness :
    0 ≤ delta machineEps sqrtAccuracy sqrtHead2 * xMid sqrtHead2 ∧
    xAcc1 machineEps sqrtAccuracy sqrtHead2 ≤ |delta machineEps sqrtAccuracy sqrtHead2| ∧
    |delta machineEps sqrtAccuracy sqrtHead2| < |sqrtHead2.xMax - sqrtHead2.root| ∧
    (advance squareFn machineEps sqrtAccuracy sqrtHead2).root =
      sqrtHead2.root + delta machineEps sqrtAccuracy sqrtHead2 ∧
    (advance squareFn machineEps sqrtAccuracy sqrtHead2).froot =
      squareFn (sqrtHead2.root + delta machineEps sqrtAccuracy sqrtHead2) ∧
    (advance squareFn machineEps sqrtAccuracy sqrtHead2).xMin = sqrtHead2.root ∧
    (advance squareFn machineEps sqrtAccuracy sqrtHead2).fxMin = sqrtHead2.froot ∧
    (advance squareFn machineEps sqrtAccuracy sqrtHead2).xMax = sqrtHead2.xMax ∧
    (advance squareFn machineEps sqrtAccuracy sqrtHead2).fxMax = sqrtHead2.fxMax :=
  advance_makes_progress squareFn machineEps sqrtAccuracy sqrtHead2 machineEps_nonneg
    sqrtAccuracy_nonneg sqrt_not_converged_2

/-- C17. An endpoint that is already a root is returned without evaluating `f`: if
`evaluationNumber_ <= maxEvaluations_` on entry and `fxMax_ == 0`, the call returns the initial
`xMax_`; if `fxMax_ != 0` and `fxMin_ == 0`, it returns the initial `xMin_`; in both cases `f`
is never called and `evaluationNumber_` is unchanged. -/
theorem endpoint_root_returned (f : α → α) (eps xAccuracy : α) (maxEvaluations : Nat)
    (s : State α) (hle : s.evaluationNumber ≤ maxEvaluations) :
    (s.fxMax = 0 →
      ∃ t, solveImpl f eps xAccuracy maxEvaluations s = Outcome.returned s.xMax t ∧
        t.calls = s.calls ∧ t.evaluationNumber = s.evaluationNumber) ∧
    (s.fxMax ≠ 0 → s.fxMin = 0 →
      ∃ t, solveImpl f eps xAccuracy maxEvaluations s = Outcome.returned s.xMin t ∧
        t.calls = s.calls ∧ t.evaluationNumber = s.evaluationNumber) := by
  have hret : ∀ x, (atCheck (init s)).root = x → (atCheck (init s)).froot = 0 →
      ∃ t, solveImpl f eps xAccuracy maxEvaluations s = Outcome.returned x t ∧
        t.calls = s.calls ∧ t.evaluationNumber = s.evaluationNumber := by
    intro x hx hz
    refine ⟨atCheck (init s), ?_, (atCheck_calls (init s)).1, (atCheck_calls (init s)).2⟩
    rw [solveImpl_returned_iff]
    exact ⟨0, init s, LoopHead.entry, hle, Or.inr hz, rfl, hx.symm⟩
  constructor
  · intro hmax
    have hz : (init s).froot = 0 := hmax
    have hself := atCheck_of_froot_zero hz
    apply hret
    · rw [hself]
      rfl
    · rw [hself]
      exact hz
  · intro hmax hmin
    have hr : (0 < (init s).froot ∧ 0 < (init s).fxMax) ∨
        ((init s).froot < 0 ∧ (init s).fxMax < 0) := by
      show (0 < s.fxMax ∧ 0 < s.fxMax) ∨ (s.fxMax < 0 ∧ s.fxMax < 0)
      rcases lt_or_gt_of_ne hmax with hneg | hpos
      · exact Or.inr ⟨hneg, hneg⟩
      · exact Or.inl ⟨hpos, hpos⟩
    have hre : rebracket (init s) =
        { init s with xMax := s.xMin, fxMax := s.fxMin, d := s.xMax - s.xMin,
                      e := s.xMax - s.xMin } := by
      unfold rebracket
      rw [if_pos hr]
      rfl
    have hsw : |(rebracket (init s)).fxMax| < |(rebracket (init s)).froot| := by
      rw [hre]
      show |s.fxMin| < |s.fxMax|
      rw [hmin, abs_zero]
      exact abs_pos.mpr hmax
    have hat : (atCheck (init s)).root = s.xMin ∧ (atCheck (init s)).froot = 0 := by
      unfold atCheck reorder
      rw [if_pos hsw, hre]
      exact ⟨rfl, hmin⟩
    exact hret s.xMin hat.1 hat.2

theorem endpoint_root_returned_witness :
    ∃ t, solveImpl linearFn machineEps 0 100
        ({ (linearEntry : State ℚ) with xMin := 0, fxMin := 0 }) = Outcome.returned 0 t ∧
      t.calls = ({ (linearEntry : State ℚ) with xMin := 0, fxMin := 0 }).calls ∧
      t.evaluationNumber =
        ({ (linearEntry : State ℚ) with xMin := 0, fxMin := 0 }).evaluationNumber :=
  (endpoint_root_returned linearFn machineEps 0 100
    ({ (linearEntry : State ℚ) with xMin := 0, fxMin := 0 }) (by simp [linearEntry])).2
    (by simp [linearEntry]) rfl

/-- C18. Convergence ordering: at the convergence check of every pass, from any state,
`|froot| <= |fxMax_|`; in particular any returned root has `|froot| <= |fxMax_|` in the final
state. -/
theorem convergence_ordering (f : α → α) (eps xAccuracy : α) (maxEvaluations : Nat)
    (s : State α) :
    (∀ h : State α, |(atCheck h).froot| ≤ |(atCheck h).fxMax|) ∧
    (∀ r t, solveImpl f eps xAccuracy maxEvaluations s = Outcome.returned r t →
      |t.froot| ≤ |t.fxMax|) := by
  refine ⟨fun h => reorder_abs_le _, ?_⟩
  intro r t hr
  obtain ⟨n, g, -, -, -, rfl, -⟩ := solveImpl_returned_iff.mp hr
  exact reorder_abs_le _

theorem convergence_ordering_witness : |sqrtCheck7.froot| ≤ |sqrtCheck7.fxMax| :=
  (convergence_ordering squareFn machineEps sqrtAccuracy 100 (squareEntry : State ℚ)).2
    sqrtCheck7.root sqrtCheck7 sqrt_run

/-- C19. Every division executed after a failed convergence check has a non-zero divisor:
`fxMin_ != 0` when `s = froot/fxMin_` is computed, `fxMax_ != 0` when `fxMin_/fxMax_` and
`froot/fxMax_` are computed, and `q != 0` when `d = p/q` is computed; so the step computed with
checked divisions is always defined and equals the step of the embedding. -/
theorem divisions_are_defined (eps xAccuracy : α) (h : State α)
    (hc : ¬ converged eps xAccuracy (atCheck h)) :
    (tryInterpolation eps xAccuracy (atCheck h) → (atCheck h).fxMin ≠ 0) ∧
    (atCheck h).fxMax ≠ 0 ∧
    (tryInterpolation eps xAccuracy (atCheck h) → accepted eps xAccuracy (atCheck h) →
      qNorm (atCheck h) ≠ 0) ∧
    chooseStepChecked eps xAccuracy (atCheck h) = some (chooseStep eps xAccuracy (atCheck h)) := by
  obtain ⟨-, hmax⟩ := not_converged_ne h hc
  refine ⟨fun ht => (tryInterpolation_ne ht).1, hmax, fun _ ha => accepted_qNorm_ne ha, ?_⟩
  generalize atCheck h = c at hmax
  unfold chooseStepChecked chooseStep
  split_ifs with ht ha
  · rw [interpolantChecked_eq c (tryInterpolation_ne ht).1 hmax, Option.some_bind,
      acceptChecked_eq, if_pos ha]
    unfold checkedDiv
    rw [if_neg (accepted_qNorm_ne ha)]
    rfl
  · rw [interpolantChecked_eq c (tryInterpolation_ne ht).1 hmax, Option.some_bind,
      acceptChecked_eq, if_neg ha]
  · rfl

theorem divisions_are_defined_witness :
    chooseStepChecked machineEps sqrtAccuracy (atCheck sqrtHead2) =
      some (chooseStep machineEps sqrtAccuracy (atCheck sqrtHead2)) :=
  (divisions_are_defined machineEps sqrtAccuracy sqrtHead2
    (by rw [sqrt_atCheck_2]; exact sqrt_not_converged_2)).2.2.2

/-- C20. Stored function values stay consistent with `f`: if `fxMin_ = f(xMin_)` and
`fxMax_ = f(xMax_)` on entry, then at every loop head, after the re-bracket step, after the swap
and at return `fxMin_ = f(xMin_)`, `fxMax_ = f(xMax_)` and `froot = f(root_)`; hence a return
with `froot == 0` returns a point where `f` is exactly zero. -/
theorem stored_values_consistent (f : α → α) (eps xAccuracy : α) (maxEvaluations : Nat)
    (s : State α) (hmin : s.fxMin = f s.xMin) (hmax : s.fxMax = f s.xMax) :
    (∀ n h, LoopHead f eps xAccuracy maxEvaluations s n h →
      Consistent f h ∧ Consistent f (rebracket h) ∧ Consistent f (atCheck h)) ∧
    (∀ r t, solveImpl f eps xAccuracy maxEvaluations s = Outcome.returned r t →
      Consistent f t ∧ t.froot = f r ∧ (t.froot = 0 → f r = 0)) := by
  constructor
  · intro n h hh
    have hcons := hh.consistent hmin hmax
    exact ⟨hcons, rebracket_consistent hcons, atCheck_consistent hcons⟩
  · intro r t hr
    obtain ⟨n, g, hh, -, -, rfl, rfl⟩ := solveImpl_returned_iff.mp hr
    have hcons := atCheck_consistent (hh.consistent hmin hmax)
    exact ⟨hcons, hcons.2.2, fun h0 => by rw [← hcons.2.2]; exact h0⟩

theorem stored_values_consistent_witness :
    Consistent squareFn sqrtHead2 ∧ Consistent squareFn (rebracket sqrtHead2) ∧
      Consistent squareFn (atCheck sqrtHead2) :=
  (stored_values_consistent squareFn machineEps sqrtAccuracy 100 (squareEntry : State ℚ)
    (by norm_num [squareEntry, squareFn]) (by norm_num [squareEntry, squareFn])).1 2 sqrtHead2
    sqrt_head_2

end Behaviour

end Brent

end QuantLib
